import Mathlib

/-!
# Verification of the rt-cloud BIDS streaming core

Shallow embedding of the BIDS streaming components of rt-cloud
(`rtCommon/bidsIncremental.py`, `rtCommon/bidsRun.py`,
`rtCommon/bidsArchive.py`, `rtCommon/bidsCommon.py`,
`rtCommon/bidsUtils.py`) together with proofs about the embedded
operations.

Python dictionaries are modelled as insertion-ordered association
lists, Python numbers as `ℤ`/`ℚ` (floats are treated as exact
rationals; `NaN` gets an explicit constructor where NIfTI header
fields need it), and fallible operations return `Except`.
-/

namespace RtCloud

/-- A Python scalar value as it appears in a metadata dictionary:
a string, an int, a float (modelled as an exact rational), a list of
floats (the `SliceTiming` sidecar value) or a list of strings (the
`Authors` dataset-description value). -/
inductive PyVal where
  | str (s : String)
  | int (n : ℤ)
  | float (q : ℚ)
  | list (xs : List ℚ)
  | strlist (xs : List String)
deriving DecidableEq, Repr

/-- A Python `dict` with string keys, as an insertion-ordered
association list (first binding of a key is the authoritative one;
`pySet` updates in place like CPython dict assignment). -/
abbrev Meta := List (String × PyVal)

/-- `d.get(k, None)`: first binding of `k`, if any. -/
def pyGet : Meta → String → Option PyVal
  | [], _ => none
  | (k', v) :: rest, k => if k' = k then some v else pyGet rest k

/-- `d[k] = v`: replace the binding in place, or append a new one. -/
def pySet : Meta → String → PyVal → Meta
  | [], k, v => [(k, v)]
  | (k', v') :: rest, k, v =>
      if k' = k then (k', v) :: rest else (k', v') :: pySet rest k v

/-- `d.pop(k, None)`: drop every binding of `k`. -/
def pyPop (m : Meta) (k : String) : Meta :=
  m.filter (fun p => p.1 != k)

/-- `d.update(vs)`: assign each binding of `vs` into `d`, in order. -/
def pyUpdate (m vs : Meta) : Meta :=
  vs.foldl (fun acc p => pySet acc p.1 p.2) m

/-- First-of-`none` choice on options (Python's "later write wins"
combinator for reasoning about `pyUpdate`). -/
def orO (a b : Option PyVal) : Option PyVal :=
  match a with
  | some v => some v
  | none => b

/-- Value of the last binding of `k` in `vs` (the one `dict.update`
leaves in force when `vs` binds `k` several times). -/
def lookupLast (vs : Meta) (k : String) : Option PyVal :=
  pyGet vs.reverse k

theorem pyGet_pySet (m : Meta) (k : String) (v : PyVal) (k' : String) :
    pyGet (pySet m k v) k' = if k = k' then some v else pyGet m k' := by
  induction m with
  | nil =>
    by_cases h : k = k' <;> simp [pySet, pyGet, h]
  | cons p rest ih =>
    obtain ⟨k0, v0⟩ := p
    by_cases h0 : k0 = k
    · subst h0
      by_cases h : k0 = k' <;> simp [pySet, pyGet, h]
    · by_cases h : k0 = k'
      · subst h
        have hkk : ¬ k = k0 := fun he => h0 he.symm
        simp [pySet, pyGet, h0, hkk]
      · simp [pySet, pyGet, h0, h, ih]

theorem pyGet_pyPop (m : Meta) (k k' : String) :
    pyGet (pyPop m k) k' = if k = k' then none else pyGet m k' := by
  induction m with
  | nil => by_cases h : k = k' <;> simp [pyPop, pyGet, h]
  | cons p rest ih =>
    obtain ⟨k0, v0⟩ := p
    simp only [pyPop, List.filter_cons] at ih ⊢
    by_cases h0 : k0 = k
    · subst h0
      have hb : (k0 != k0) = false := by simp
      rw [hb]
      simp only [Bool.false_eq_true, if_false]
      rw [ih]
      by_cases h : k0 = k'
      · subst h; simp
      · simp [pyGet, h]
    · have hb : (k0 != k) = true := by simp [h0]
      rw [hb]
      simp only [if_true]
      by_cases h : k0 = k'
      · subst h
        have hkk : ¬ k = k0 := fun he => h0 he.symm
        simp [pyGet, hkk]
      · simp [pyGet, h, ih]

theorem pyGet_append (a b : Meta) (k : String) :
    pyGet (a ++ b) k = orO (pyGet a k) (pyGet b k) := by
  induction a with
  | nil => simp [pyGet, orO]
  | cons p rest ih =>
    obtain ⟨k0, v0⟩ := p
    by_cases h : k0 = k <;> simp [pyGet, h, orO, ih]

theorem pyGet_pyUpdate (m vs : Meta) (k : String) :
    pyGet (pyUpdate m vs) k = orO (lookupLast vs k) (pyGet m k) := by
  induction vs generalizing m with
  | nil => simp [pyUpdate, lookupLast, pyGet, orO]
  | cons p rest ih =>
    obtain ⟨k0, v0⟩ := p
    have step : pyUpdate m ((k0, v0) :: rest) = pyUpdate (pySet m k0 v0) rest := rfl
    rw [step, ih]
    have hlast : lookupLast ((k0, v0) :: rest) k
        = orO (lookupLast rest k) (if k0 = k then some v0 else none) := by
      simp only [lookupLast, List.reverse_cons]
      rw [pyGet_append]
      by_cases h : k0 = k <;> simp [pyGet, h]
    rw [hlast, pyGet_pySet]
    cases hr : lookupLast rest k with
    | some v => simp [orO]
    | none => by_cases h : k0 = k <;> simp [orO, h]

theorem list_all_congr {α : Type _} {l : List α} {p q : α → Bool}
    (h : ∀ x ∈ l, p x = q x) : l.all p = l.all q := by
  induction l with
  | nil => rfl
  | cons x xs ih =>
    simp only [List.all_cons]
    rw [h x (List.mem_cons_self x xs), ih fun y hy => h y (List.mem_cons_of_mem x hy)]

/-! ## `bidsUtils.makeDicomFieldBidsCompatible` (also in `bidsCommon.py`)

The source removes every character matching the regex class
`[^a-zA-z]`.  Note the lower-case `z` after `A-`: the class kept by
the substitution is `a-z` ∪ `A-z`, i.e. ASCII 65–122, which besides
the letters also contains `[`, `\`, `]`, `^`, `_` and the backquote. -/

/-- A character NOT matched by the regex `[^a-zA-z]`, i.e. a character
the substitution keeps. -/
def keptByDicomRegex (c : Char) : Bool :=
  ('a' ≤ c && c ≤ 'z') || ('A' ≤ c && c ≤ 'z')

/-- `makeDicomFieldBidsCompatible`: `re.compile('[^a-zA-z]').sub("", field)`. -/
def makeDicomFieldBidsCompatible (field : String) : String :=
  String.mk (field.toList.filter keptByDicomRegex)

/-- The `functools.lru_cache` wrapper around
`makeDicomFieldBidsCompatible`, with the cache as explicit state
(eviction at 128 entries is not modelled; an evicted entry is merely
recomputed to the same value). -/
def makeDicomFieldBidsCompatibleCached (cache : List (String × String))
    (field : String) : String × List (String × String) :=
  match cache.find? (fun p => p.1 == field) with
  | some p => (p.2, cache)
  | none =>
      let r := makeDicomFieldBidsCompatible field
      (r, (field, r) :: cache)

/-- A character is alphabetic (A–Z or a–z). -/
def isAsciiLetter (c : Char) : Bool :=
  ('a' ≤ c && c ≤ 'z') || ('A' ≤ c && c ≤ 'Z')

/-! ## `BidsArchive._metadataAppendCompatible` (`bidsArchive.py` 512–577)

The Python loop returns `False` at the first offending field and
`True` if no field offends; value-wise this is the conjunction of the
per-field checks, written here with `List.all` over the same two
field lists in source order. -/

/-- Fields that must agree when present in both sidecar dictionaries. -/
def matchFields : List String :=
  ["Modality", "MagneticFieldStrength", "ImagingFrequency",
   "Manufacturer", "ManufacturersModelName",
   "InstitutionName", "InstitutionAddress",
   "DeviceSerialNumber", "StationName", "BodyPartExamined",
   "PatientPosition", "EchoTime",
   "ProcedureStepDescription", "SoftwareVersions",
   "MRAcquisitionType", "SeriesDescription", "ProtocolName",
   "ScanningSequence", "SequenceVariant", "ScanOptions",
   "SequenceName", "SpacingBetweenSlices", "SliceThickness",
   "ImageType", "RepetitionTime", "PhaseEncodingDirection",
   "FlipAngle", "InPlanePhaseEncodingDirectionDICOM",
   "ImageOrientationPatientDICOM", "PartialFourier"]

/-- Fields that must NOT agree when present in both dictionaries. -/
def differentFields : List String :=
  ["AcquisitionTime", "AcquisitionNumber"]

/-- Per-field check of the first loop: skip unless the field is
present (non-`None`) in both dictionaries, then require equality. -/
def matchFieldOk (meta1 meta2 : Meta) (field : String) : Bool :=
  match pyGet meta1 field, pyGet meta2 field with
  | some v1, some v2 => v1 = v2
  | _, _ => true

/-- Per-field check of the second loop: skip unless present in both,
then require inequality. -/
def differFieldOk (meta1 meta2 : Meta) (field : String) : Bool :=
  match pyGet meta1 field, pyGet meta2 field with
  | some v1, some v2 => v1 ≠ v2
  | _, _ => true

/-- `BidsArchive._metadataAppendCompatible(meta1, meta2)`. -/
def metadataAppendCompatible (meta1 meta2 : Meta) : Bool :=
  matchFields.all (matchFieldOk meta1 meta2)
    && differentFields.all (differFieldOk meta1 meta2)

theorem metadataAppendCompatible_false_of_match_diff
    {m1 m2 : Meta} {f : String} {v1 v2 : PyVal}
    (hf : f ∈ matchFields) (h1 : pyGet m1 f = some v1)
    (h2 : pyGet m2 f = some v2) (hne : v1 ≠ v2) :
    metadataAppendCompatible m1 m2 = false := by
  have hfo : matchFieldOk m1 m2 f = false := by
    simp [matchFieldOk, h1, h2, hne]
  have : matchFields.all (matchFieldOk m1 m2) = false := by
    rw [List.all_eq_false]
    exact ⟨f, hf, by simp [hfo]⟩
  simp [metadataAppendCompatible, this]

theorem metadataAppendCompatible_false_of_differ_eq
    {m1 m2 : Meta} {f : String} {v : PyVal}
    (hf : f ∈ differentFields) (h1 : pyGet m1 f = some v)
    (h2 : pyGet m2 f = some v) :
    metadataAppendCompatible m1 m2 = false := by
  have hfo : differFieldOk m1 m2 f = false := by
    simp [differFieldOk, h1, h2]
  have : differentFields.all (differFieldOk m1 m2) = false := by
    rw [List.all_eq_false]
    exact ⟨f, hf, by simp [hfo]⟩
  simp [metadataAppendCompatible, this]

theorem metadataAppendCompatible_pop_left
    {m1 m2 : Meta} {k : String} (h : pyGet m2 k = none) :
    metadataAppendCompatible (pyPop m1 k) m2 = metadataAppendCompatible m1 m2 := by
  unfold metadataAppendCompatible
  have hm : ∀ f ∈ matchFields, matchFieldOk (pyPop m1 k) m2 f = matchFieldOk m1 m2 f := by
    intro f _
    unfold matchFieldOk
    rw [pyGet_pyPop]
    by_cases hfk : k = f
    · subst hfk; rw [h]; simp
    · simp [hfk]
  have hd : ∀ f ∈ differentFields,
      differFieldOk (pyPop m1 k) m2 f = differFieldOk m1 m2 f := by
    intro f _
    unfold differFieldOk
    rw [pyGet_pyPop]
    by_cases hfk : k = f
    · subst hfk; rw [h]; simp
    · simp [hfk]
  rw [list_all_congr hm, list_all_congr hd]

theorem metadataAppendCompatible_pop_right
    {m1 m2 : Meta} {k : String} (h : pyGet m1 k = none) :
    metadataAppendCompatible m1 (pyPop m2 k) = metadataAppendCompatible m1 m2 := by
  unfold metadataAppendCompatible
  have hm : ∀ f ∈ matchFields, matchFieldOk m1 (pyPop m2 k) f = matchFieldOk m1 m2 f := by
    intro f _
    unfold matchFieldOk
    rw [pyGet_pyPop]
    by_cases hfk : k = f
    · subst hfk; rw [h]
    · simp [hfk]
  have hd : ∀ f ∈ differentFields,
      differFieldOk m1 (pyPop m2 k) f = differFieldOk m1 m2 f := by
    intro f _
    unfold differFieldOk
    rw [pyGet_pyPop]
    by_cases hfk : k = f
    · subst hfk; rw [h]
    · simp [hfk]
  rw [list_all_congr hm, list_all_congr hd]

/-! ## NIfTI headers and `BidsArchive._imagesAppendCompatible` (`bidsArchive.py` 419–510)

Header fields are numpy scalars or small float arrays; a float can be
`NaN`, so values get an explicit `NaN` constructor.  `np.allclose` is
used with `atol=0.0, equal_nan=True` and its default `rtol=1e-5`; its
comparison is `|a - b| <= atol + rtol * |b|`, which is asymmetric in
`a` and `b`.  `np.array_equal` is `NaN`-sensitive (`NaN != NaN`). -/

/-- A numpy floating value: `NaN` or a finite number. -/
inductive NpVal where
  | nan
  | num (q : ℚ)
deriving DecidableEq, Repr

/-- Exact rational multiplication written through `Rat.divInt` (the
kernel-evaluable normal form); equal to `*` by `ratMul_eq`. -/
def ratMul (a b : ℚ) : ℚ := Rat.divInt (a.num * b.num) (a.den * b.den)

/-- Exact rational subtraction through `Rat.divInt`; equal to `-` by
`ratSub_eq`. -/
def ratSub (a b : ℚ) : ℚ :=
  Rat.divInt (a.num * b.den - b.num * a.den) (a.den * b.den)

/-- Absolute value through `Rat.divInt`; equal to `|·|` by
`ratAbs_eq`. -/
def ratAbs (q : ℚ) : ℚ := if q < 0 then Rat.divInt (-q.num) q.den else q

theorem ratMul_eq (a b : ℚ) : ratMul a b = a * b := by
  unfold ratMul
  rw [Rat.divInt_eq_div]
  push_cast
  conv_rhs => rw [← Rat.num_div_den a, ← Rat.num_div_den b]
  rw [div_mul_div_comm]

theorem ratSub_eq (a b : ℚ) : ratSub a b = a - b := by
  unfold ratSub
  rw [Rat.divInt_eq_div]
  push_cast
  conv_rhs => rw [← Rat.num_div_den a, ← Rat.num_div_den b]
  rw [div_sub_div _ _ (Nat.cast_ne_zero.mpr (Rat.den_nz a))
    (Nat.cast_ne_zero.mpr (Rat.den_nz b))]
  ring_nf

theorem ratAbs_eq (q : ℚ) : ratAbs q = |q| := by
  unfold ratAbs
  by_cases h : q < 0
  · rw [if_pos h, abs_of_neg h]
    rw [show (-q.num) = (-q).num by simp, show q.den = (-q).den by simp]
    exact Rat.num_divInt_den _
  · rw [if_neg h, abs_of_nonneg (not_lt.mp h)]

/-- Default relative tolerance of `np.allclose`. -/
def npRtol : ℚ := Rat.divInt 1 100000

/-- `np.isclose(a, b, atol=0.0, equal_nan=True)` on scalars:
`|a - b| <= 0.0 + rtol * |b|`, with `NaN` equal to `NaN`. -/
def npIsClose (a b : NpVal) : Bool :=
  match a, b with
  | .nan, .nan => true
  | .nan, .num _ => false
  | .num _, .nan => false
  | .num x, .num y => decide (ratAbs (ratSub x y) ≤ ratMul npRtol (ratAbs y))

/-- `np.allclose(v1, v2, atol=0.0, equal_nan=True)` on equal-shape
1-D arrays. -/
def npAllClose (v1 v2 : List NpVal) : Bool :=
  decide (v1.length = v2.length) && (v1.zip v2).all fun p => npIsClose p.1 p.2

/-- Elementwise numpy `==` (false on any `NaN`). -/
def npEqVal (a b : NpVal) : Bool :=
  match a, b with
  | .num x, .num y => decide (x = y)
  | _, _ => false

/-- `np.array_equal(v1, v2)`: equal shape and elementwise `==`. -/
def npArrayEqual (v1 v2 : List NpVal) : Bool :=
  decide (v1.length = v2.length) && (v1.zip v2).all fun p => npEqVal p.1 p.2

/-- The NIfTI-1 header record, restricted to the fields the append
logic reads: the 23 fields of `fieldsToMatch` plus `dim` and
`pixdim`.  `dim` is an integer array (`dim[0]` = declared number of
dimensions); `srow_x/y/z` are 4-vectors. -/
structure NiftiHeader where
  intent_p1 : NpVal
  intent_p2 : NpVal
  intent_p3 : NpVal
  intent_code : NpVal
  dim_info : NpVal
  datatype : NpVal
  bitpix : NpVal
  xyzt_units : NpVal
  slice_duration : NpVal
  toffset : NpVal
  scl_slope : NpVal
  scl_inter : NpVal
  qform_code : NpVal
  quatern_b : NpVal
  quatern_c : NpVal
  quatern_d : NpVal
  qoffset_x : NpVal
  qoffset_y : NpVal
  qoffset_z : NpVal
  sform_code : NpVal
  srow_x : List NpVal
  srow_y : List NpVal
  srow_z : List NpVal
  dim : List Nat
  pixdim : List NpVal
deriving DecidableEq, Repr

/-- First stage of `_imagesAppendCompatible`: the loop over
`fieldsToMatch` with `np.allclose(v1, v2, atol=0.0, equal_nan=True)`,
unrolled over the static field list in source order. -/
def mustMatchClose (h1 h2 : NiftiHeader) : Bool :=
  npIsClose h1.intent_p1 h2.intent_p1 &&
  npIsClose h1.intent_p2 h2.intent_p2 &&
  npIsClose h1.intent_p3 h2.intent_p3 &&
  npIsClose h1.intent_code h2.intent_code &&
  npIsClose h1.dim_info h2.dim_info &&
  npIsClose h1.datatype h2.datatype &&
  npIsClose h1.bitpix h2.bitpix &&
  npIsClose h1.xyzt_units h2.xyzt_units &&
  npIsClose h1.slice_duration h2.slice_duration &&
  npIsClose h1.toffset h2.toffset &&
  npIsClose h1.scl_slope h2.scl_slope &&
  npIsClose h1.scl_inter h2.scl_inter &&
  npIsClose h1.qform_code h2.qform_code &&
  npIsClose h1.quatern_b h2.quatern_b &&
  npIsClose h1.quatern_c h2.quatern_c &&
  npIsClose h1.quatern_d h2.quatern_d &&
  npIsClose h1.qoffset_x h2.qoffset_x &&
  npIsClose h1.qoffset_y h2.qoffset_y &&
  npIsClose h1.qoffset_z h2.qoffset_z &&
  npIsClose h1.sform_code h2.sform_code &&
  npAllClose h1.srow_x h2.srow_x &&
  npAllClose h1.srow_y h2.srow_y &&
  npAllClose h1.srow_z h2.srow_z

/-- `dim[0]` of a header: the declared number of dimensions. -/
def nDims (h : NiftiHeader) : Nat := h.dim.headD 0

/-- Second stage of `_imagesAppendCompatible`: the dimension
reconciliation.  Case 1 (`dim[0]` equal): `pixdim` exactly equal and
`dim[:n]` (slots `0..n-1`, i.e. everything but the final axis) equal.
Case 2: `dim[0]` differs by one, shared axes `dim[1:n+1]` equal and
`pixdim[:n+1]` equal, where `n = min`. -/
def dimensionMatch (h1 h2 : NiftiHeader) : Bool :=
  if nDims h1 = nDims h2 then
    npArrayEqual h1.pixdim h2.pixdim
      && decide (h1.dim.take (nDims h1) = h2.dim.take (nDims h2))
  else
    decide (((nDims h1 : ℤ) - (nDims h2 : ℤ)).natAbs = 1)
      && decide ((h1.dim.drop 1).take (min (nDims h1) (nDims h2))
          = (h2.dim.drop 1).take (min (nDims h1) (nDims h2)))
      && npArrayEqual (h1.pixdim.take (min (nDims h1) (nDims h2) + 1))
          (h2.pixdim.take (min (nDims h1) (nDims h2) + 1))

/-- `BidsArchive._imagesAppendCompatible(img1, img2)`: both stages
must pass (the source returns `False` at the first failing stage). -/
def imagesAppendCompatible (h1 h2 : NiftiHeader) : Bool :=
  mustMatchClose h1 h2 && dimensionMatch h1 h2

theorem decideEqComm {α : Type _} [DecidableEq α] (x y : α) :
    decide (x = y) = decide (y = x) := by
  by_cases h : x = y
  · subst h; rfl
  · have h' : ¬ y = x := fun he => h he.symm
    simp [h, h']

theorem mem_zip_self {α : Type _} {p : α × α} {l : List α}
    (hp : p ∈ l.zip l) : p.1 = p.2 ∧ p.1 ∈ l := by
  induction l with
  | nil => simp [List.zip] at hp
  | cons x xs ih =>
    rw [List.zip_cons_cons, List.mem_cons] at hp
    rcases hp with h | h
    · rw [h]; exact ⟨rfl, List.mem_cons_self x xs⟩
    · obtain ⟨h1, h2⟩ := ih h
      exact ⟨h1, List.mem_cons_of_mem x h2⟩

theorem npIsClose_self (v : NpVal) : npIsClose v v = true := by
  cases v with
  | nan => rfl
  | num q =>
    simp only [npIsClose, decide_eq_true_eq, ratSub_eq, ratAbs_eq, ratMul_eq,
      sub_self, abs_zero]
    unfold npRtol
    rw [Rat.divInt_eq_div]
    positivity

theorem npAllClose_self (l : List NpVal) : npAllClose l l = true := by
  simp only [npAllClose, decide_True, Bool.true_and, List.all_eq_true]
  intro p hp
  rw [(mem_zip_self hp).1]
  exact npIsClose_self p.2

theorem npEqVal_symm (a b : NpVal) : npEqVal a b = npEqVal b a := by
  cases a <;> cases b <;> simp only [npEqVal]
  exact decideEqComm _ _

theorem npArrayEqual_symm (l1 l2 : List NpVal) :
    npArrayEqual l1 l2 = npArrayEqual l2 l1 := by
  unfold npArrayEqual
  rw [decideEqComm, ← List.zip_swap l2 l1, List.all_map]
  have : ∀ p ∈ l2.zip l1,
      ((fun p : NpVal × NpVal => npEqVal p.1 p.2) ∘ Prod.swap) p
        = (fun p : NpVal × NpVal => npEqVal p.1 p.2) p := by
    intro p _
    exact npEqVal_symm p.2 p.1
  rw [list_all_congr this]

theorem npArrayEqual_self_of_no_nan {l : List NpVal} (h : NpVal.nan ∉ l) :
    npArrayEqual l l = true := by
  simp only [npArrayEqual, decide_True, Bool.true_and, List.all_eq_true]
  intro p hp
  obtain ⟨h1, h2⟩ := mem_zip_self hp
  rw [← h1]
  cases hv : p.1 with
  | nan => exact absurd (hv ▸ h2) h
  | num q => simp [npEqVal]

theorem dimensionMatch_symm (a b : NiftiHeader) :
    dimensionMatch a b = dimensionMatch b a := by
  unfold dimensionMatch
  by_cases h : nDims a = nDims b
  · rw [if_pos h, if_pos h.symm, npArrayEqual_symm, decideEqComm, h]
  · rw [if_neg h, if_neg (fun he => h he.symm)]
    have habs : ((nDims a : ℤ) - (nDims b : ℤ)).natAbs
        = ((nDims b : ℤ) - (nDims a : ℤ)).natAbs := by omega
    have hmin : min (nDims a) (nDims b) = min (nDims b) (nDims a) :=
      min_comm _ _
    rw [habs, hmin,
      decideEqComm ((a.dim.drop 1).take (min (nDims b) (nDims a)))
        ((b.dim.drop 1).take (min (nDims b) (nDims a))),
      npArrayEqual_symm (a.pixdim.take (min (nDims b) (nDims a) + 1))
        (b.pixdim.take (min (nDims b) (nDims a) + 1))]

theorem imagesAppendCompatible_refl_of_no_nan
    {h : NiftiHeader} (hp : NpVal.nan ∉ h.pixdim) :
    imagesAppendCompatible h h = true := by
  unfold imagesAppendCompatible
  have hm : mustMatchClose h h = true := by
    unfold mustMatchClose
    simp [npIsClose_self, npAllClose_self]
  have hd : dimensionMatch h h = true := by
    unfold dimensionMatch
    simp [npArrayEqual_self_of_no_nan hp]
  simp [hm, hd]

/-! ## Errors

The exception classes raised by the embedded code: the repo's own
`ValidationError`, `MissingMetadataError`, `MetadataMismatchError`,
`StateError`, pybids' `NoMatchError`, and the Python builtins. -/

/-- An exception raised by the embedded operations. -/
inductive PyErr where
  | validationError
  | missingMetadataError
  | metadataMismatchError
  | stateError
  | noMatchError
  | runtimeError
  | indexError
  | valueError
  | typeError
  | keyError
  | assertionError
  | attributeError
deriving DecidableEq, Repr

/-! ## Python coercions -/

/-- Python `int()` truncates a float toward zero. -/
def pyTrunc (q : ℚ) : ℤ :=
  if 0 ≤ q then ⌊q⌋ else ⌈q⌉

/-- Python `int(value)`: ints pass through, floats are truncated
toward zero, strings are parsed as integer literals (non-integer
strings raise `ValueError`; the model's string parser accepts the
decimal integer literals Python does, non-literal forms are out of
the modelled domain). -/
def pyInt : PyVal → Except PyErr ℤ
  | .int n => .ok n
  | .float q => .ok (pyTrunc q)
  | .str s =>
      match s.toInt? with
      | some n => .ok n
      | none => .error .valueError
  | .list _ => .error .typeError
  | .strlist _ => .error .typeError

/-- Python `float(value)` as used when a metadata value is stored
into a numpy float array slot (strings restricted to integer
literals, as in `pyInt`). -/
def pyFloatCast : PyVal → Except PyErr ℚ
  | .int n => .ok n
  | .float q => .ok q
  | .str s =>
      match s.toInt? with
      | some n => .ok (n : ℚ)
      | none => .error .valueError
  | .list _ => .error .typeError
  | .strlist _ => .error .typeError

/-- Python truthiness of a metadata value. -/
def pyTruthy : PyVal → Bool
  | .str s => s ≠ ""
  | .int n => n ≠ 0
  | .float q => q ≠ 0
  | .list xs => xs ≠ []
  | .strlist xs => xs ≠ []

/-! ## The BIDS entity table (`loadBidsEntities`)

Modelled from the spec: the data file `entities.yaml` is not part of
the sources; §3.1 of the spec fixes the recognized long names and the
filename pattern `BIDS_FILE_PATTERN` in `bidsCommon.py` fixes the
short (in-filename) names.  The repo's own test suite checks that
every long name is lower-case.  `extension` is a path-grammar token
that never occurs as a `name-value` token, so it is omitted here. -/

/-- Modelled from the spec: `{long-name → short-name}` pairs of the
recognized BIDS entities, in table order. -/
def ENTITIES : List (String × String) :=
  [("subject", "sub"), ("session", "ses"), ("task", "task"),
   ("acquisition", "acq"), ("ceagent", "ce"), ("direction", "dir"),
   ("reconstruction", "rec"), ("run", "run"), ("echo", "echo"),
   ("recording", "recording"), ("part", "part"),
   ("suffix", "suffix"), ("datatype", "datatype")]

/-- Whether a name is a recognized BIDS entity
(`BidsIncremental._exceptIfNotBids` test). -/
def isBidsEntity (name : String) : Bool :=
  ENTITIES.any fun p => p.1 == name

/-! ## `metadataFromProtocolName` (`bidsIncremental.py` 261–287)

The regex `(?:(?<=_)|(?<=^))(?:<short>-)(.+?)(?:(?=_)|(?=$))` matches
at the leftmost position that starts the string or follows `_`, where
`<short>-` is a literal prefix followed by at least one character;
the lazy group captures up to (excluding) the first later `_`, or to
the end of the string. -/

/-- The lazy capture `(.+?)` with lookahead `(?=_|$)`: at least one
character, then everything up to the first later underscore. -/
def captureLazy : List Char → Option (List Char)
  | [] => none
  | c :: rest => some (c :: rest.takeWhile (fun d => d != '_'))

/-- Scan for the leftmost boundary position where `pat` (the literal
`<short>-`) is a prefix and a non-empty capture follows.
`atBoundary` records whether the current position starts the string
or follows an underscore. -/
def searchEntityAux (pat : List Char) : Bool → List Char → Option (List Char)
  | _, [] => none
  | atBoundary, c :: rest =>
      if atBoundary && pat.isPrefixOf (c :: rest) then
        match captureLazy ((c :: rest).drop pat.length) with
        | some cap => some cap
        | none => searchEntityAux pat (c == '_') rest
      else searchEntityAux pat (c == '_') rest

/-- `re.search` of the entity pattern for short name `entity` inside
`protocolName`, returning the captured group. -/
def reSearchEntity (entity : String) (protocolName : String) : Option String :=
  (searchEntityAux (entity.toList ++ ['-']) true protocolName.toList).map
    fun l => String.mk l

/-- `BidsIncremental.metadataFromProtocolName` /
`bidsCommon.metadataFromProtocolName`: collect the captured value for
each entity whose pattern matches, keyed by the entity long name. -/
def metadataFromProtocolName (protocolName : String) : Meta :=
  if protocolName = "" then []
  else ENTITIES.filterMap fun p =>
    (reSearchEntity p.2 protocolName).map fun value => (p.1, PyVal.str value)

/-- Lift over `dict.get("ProtocolName", None)`: `None` (and the empty
string) is falsy and yields `{}`; non-string truthy values would
raise `TypeError` inside `re.search` and are outside the modelled
domain. -/
def protocolNameMeta : Option PyVal → Meta
  | some (.str s) => metadataFromProtocolName s
  | _ => []

/-! ## Time-unit normalization (`bidsCommon.adjustTimeUnits` 133–157,
inlined in `BidsIncremental.__init__` 105–118)

Note the source computes `value = int(value)` before comparing with
the cap, so the comparison and the converted value use the
truncated-toward-zero integer, not the stored value. -/

/-- One iteration of the `fieldToMaxValue` loop for `field` with cap
`maxValue`.  An absent field is skipped (`bidsCommon` variant; the
inlined `__init__` variant cannot see an absent field because the
required-metadata check precedes it). -/
def adjustOneTime (m : Meta) (field : String) (maxValue : ℤ) : Except PyErr Meta :=
  match pyGet m field with
  | none => .ok m
  | some v =>
      match pyInt v with
      | .error e => .error e
      | .ok value =>
          if value ≤ maxValue then .ok m
          else if Rat.divInt value 1000 ≤ (maxValue : ℚ) then
            .ok (pySet m field (.float (Rat.divInt value 1000)))
          else .error .validationError

/-- `adjustTimeUnits`: `RepetitionTime` (cap 100) then `EchoTime`
(cap 1), in dict-insertion order. -/
def adjustTimeUnits (m : Meta) : Except PyErr Meta :=
  match adjustOneTime m "RepetitionTime" 100 with
  | .error e => .error e
  | .ok m1 => adjustOneTime m1 "EchoTime" 1

/-! ## Images for the Incremental constructor

An image carries its numpy data shape, its header, and its voxel
data.  The data of a 3-D or 4-D image is modelled as the list of 3-D
volumes along the last axis (`frames`); a 3-D image has exactly one
frame.  Frames are flattened integer voxel arrays. -/

/-- A 3-D voxel volume (flattened). -/
abbrev Vol := List ℤ

/-- A nibabel `Nifti1Image`/`Nifti2Image`. -/
structure NiftiImage where
  shape : List Nat
  header : NiftiHeader
  frames : List Vol
deriving DecidableEq, Repr

/-- The 8-slot NIfTI `dim` array for a data shape. -/
def niftiDimOf (shape : List Nat) : List Nat :=
  shape.length :: (shape ++ List.replicate (7 - shape.length) 1)

/-- Shape after `nib.funcs.squeeze_image`: drop trailing length-1
axes beyond the third; shapes shorter than 3 are returned as-is. -/
def squeezeShape (shape : List Nat) : List Nat :=
  if shape.length < 3 then shape
  else shape.take 3 ++ ((shape.drop 3).reverse.dropWhile (fun n => n == 1)).reverse

/-- `nib.funcs.squeeze_image`: reshape and refresh the header `dim`
when trailing singleton axes are dropped, otherwise return the image
unchanged. -/
def squeezeImage (img : NiftiImage) : NiftiImage :=
  let s := squeezeShape img.shape
  if s = img.shape then img
  else { img with shape := s, header := { img.header with dim := niftiDimOf s } }

/-- The 3-D → 4-D promotion of `__init__`: `np.expand_dims(..., -1)`
plus rebuilding the image (which refreshes the header `dim`), then
`header["pixdim"][4] = RepetitionTime`. -/
def expandImage (img : NiftiImage) (repetitionTime : ℚ) : NiftiImage :=
  let s := img.shape ++ [1]
  { img with
      shape := s,
      header := { img.header with
        dim := niftiDimOf s,
        pixdim := img.header.pixdim.set 4 (NpVal.num repetitionTime) } }

/-! ## `BidsIncremental` (`bidsIncremental.py`) -/

/-- Required image-metadata keys
(`BidsIncremental.REQUIRED_IMAGE_METADATA`). -/
def REQUIRED_IMAGE_METADATA : List String :=
  ["subject", "task", "suffix", "RepetitionTime", "EchoTime"]

/-- Required dataset-description keys (`DATASET_DESC_REQ_FIELDS`). -/
def DATASET_DESC_REQ_FIELDS : List String := ["Name", "BIDSVersion"]

/-- `DEFAULT_DATASET_DESC` from `bidsCommon.py`. -/
def DEFAULT_DATASET_DESC : Meta :=
  [("Name", PyVal.str "bidsi_dataset"),
   ("BIDSVersion", PyVal.str "1.4.1"),
   ("Authors", PyVal.strlist ["The RT-Cloud Authors", "The Dataset Author"])]

/-- `BidsIncremental.missingImageMetadata`: required keys absent from
the dictionary. -/
def missingImageMetadata (imageMeta : Meta) : List String :=
  REQUIRED_IMAGE_METADATA.filter fun f => (pyGet imageMeta f).isNone

/-- Whether a supplied dataset description lacks a required field
(`datasetMetadata.get(field, None) is None`). -/
def datasetDescMissing : Option Meta → Bool
  | none => false
  | some ds => DATASET_DESC_REQ_FIELDS.any fun f => (pyGet ds f).isNone

/-- Dataset description stored on the incremental. -/
def dsMetaOf : Option Meta → Meta
  | none => DEFAULT_DATASET_DESC
  | some ds => ds

/-- A constructed BIDS Incremental. -/
structure BidsIncremental where
  imgMetadata : Meta
  image : NiftiImage
  datasetMetadata : Meta
  readme : String
  version : Nat
deriving DecidableEq, Repr

/-- `self.imageDimensions()`: the image data shape. -/
def imageDimensions (inc : BidsIncremental) : List Nat :=
  inc.image.shape

/-- The `run` coercion: `if self._imgMetadata.get("run", None):`
(truthiness!) `self._imgMetadata["run"] = int(...)`. -/
def runCoerce (m : Meta) : Except PyErr Meta :=
  match pyGet m "run" with
  | some v =>
      if pyTruthy v then
        match pyInt v with
        | .ok n => .ok (pySet m "run" (.int n))
        | .error e => .error e
      else .ok m
  | none => .ok m

/-- Set `datatype` to `"func"` when absent. -/
def defaultDatatype (m : Meta) : Meta :=
  if (pyGet m "datatype").isNone then pySet m "datatype" (.str "func") else m

/-- The metadata pipeline of `__init__` before the time-unit loop:
deep-copy, merge the parsed `ProtocolName` tokens via `dict.update`
(parsed values overwrite the caller's), coerce `run`, mirror
`TaskName := task`, default `datatype`. -/
def preAdjustMeta (imageMetadata : Meta) : Except PyErr Meta :=
  match runCoerce (pyUpdate imageMetadata
      (protocolNameMeta (pyGet imageMetadata "ProtocolName"))) with
  | .error e => .error e
  | .ok meta1 =>
      match pyGet meta1 "task" with
      | none => .error .keyError
      | some taskVal => .ok (defaultDatatype (pySet meta1 "TaskName" taskVal))

/-- Image validation/normalization at the end of `__init__`: squeeze,
reject < 3 dimensions, promote 3-D to 4-D with `pixdim[4] :=
RepetitionTime`, and the `assert len(...) == 4` that rejects
anything longer. -/
def finishImage (img : NiftiImage) (meta dsMeta : Meta) :
    Except PyErr BidsIncremental :=
  let sq := squeezeImage img
  if sq.shape.length < 3 then .error .validationError
  else if sq.shape.length = 3 then
    match pyGet meta "RepetitionTime" with
    | none => .error .keyError
    | some rtVal =>
        match pyFloatCast rtVal with
        | .error e => .error e
        | .ok q =>
            .ok { imgMetadata := meta, image := expandImage sq q,
                  datasetMetadata := dsMeta,
                  readme := "Generated BIDS-Incremental Dataset from RT-Cloud",
                  version := 1 }
  else if sq.shape.length = 4 then
    .ok { imgMetadata := meta, image := sq, datasetMetadata := dsMeta,
          readme := "Generated BIDS-Incremental Dataset from RT-Cloud",
          version := 1 }
  else .error .assertionError

/-- `BidsIncremental.__init__`: `image = none` models a `None` or
non-NIfTI argument. -/
def mkBidsIncremental (image : Option NiftiImage) (imageMetadata : Meta)
    (datasetMetadata : Option Meta) : Except PyErr BidsIncremental :=
  match image with
  | none => .error .validationError
  | some img =>
      if missingImageMetadata imageMetadata ≠ [] then .error .validationError
      else if datasetDescMissing datasetMetadata then .error .validationError
      else
        match preAdjustMeta imageMetadata with
        | .error e => .error e
        | .ok meta3 =>
            match adjustTimeUnits meta3 with
            | .error e => .error e
            | .ok meta4 => finishImage img meta4 (dsMetaOf datasetMetadata)

/-- `BidsIncremental.getMetadataField`. -/
def getMetadataField (inc : BidsIncremental) (field : String)
    (strict : Bool) : Except PyErr (Option PyVal) :=
  if strict && !isBidsEntity field then .error .valueError
  else .ok (pyGet inc.imgMetadata field)

/-- `BidsIncremental.setMetadataField` (an empty/`None` field name is
falsy and raises `ValueError`). -/
def setMetadataField (inc : BidsIncremental) (field : String) (value : PyVal)
    (strict : Bool) : Except PyErr BidsIncremental :=
  if strict && !isBidsEntity field then .error .valueError
  else if field ≠ "" then
    .ok { inc with imgMetadata := pySet inc.imgMetadata field value }
  else .error .valueError

/-- `BidsIncremental.removeMetadataField`: required fields are
rejected before anything else happens. -/
def removeMetadataField (inc : BidsIncremental) (field : String)
    (strict : Bool) : Except PyErr BidsIncremental :=
  if field ∈ REQUIRED_IMAGE_METADATA then .error .valueError
  else if strict && !isBidsEntity field then .error .valueError
  else .ok { inc with imgMetadata := pyPop inc.imgMetadata field }

/-! ## Helper lemmas about the constructor pipeline -/

theorem pyGet_mem {m : Meta} {k : String} {v : PyVal}
    (h : pyGet m k = some v) : (k, v) ∈ m := by
  induction m with
  | nil => simp [pyGet] at h
  | cons p rest ih =>
    obtain ⟨k0, v0⟩ := p
    rw [pyGet] at h
    by_cases h0 : k0 = k
    · rw [if_pos h0] at h
      injection h with hv
      subst h0
      subst hv
      exact List.mem_cons_self _ _
    · rw [if_neg h0] at h
      exact List.mem_cons_of_mem _ (ih h)

theorem protocolNameMeta_key_mem {p : Option PyVal} {k : String} {v : PyVal}
    (h : lookupLast (protocolNameMeta p) k = some v) :
    k ∈ ENTITIES.map Prod.fst := by
  have hmem : (k, v) ∈ protocolNameMeta p := by
    have := pyGet_mem h
    exact List.mem_reverse.mp this
  match p with
  | none => simp [protocolNameMeta] at hmem
  | some (.int _) => simp [protocolNameMeta] at hmem
  | some (.float _) => simp [protocolNameMeta] at hmem
  | some (.list _) => simp [protocolNameMeta] at hmem
  | some (.strlist _) => simp [protocolNameMeta] at hmem
  | some (.str s) =>
    simp only [protocolNameMeta, metadataFromProtocolName] at hmem
    by_cases hs : s = ""
    · simp [hs] at hmem
    · rw [if_neg hs] at hmem
      obtain ⟨a, ha, hae⟩ := List.mem_filterMap.mp hmem
      cases hr : reSearchEntity a.2 s with
      | none => rw [hr] at hae; simp at hae
      | some value =>
        rw [hr] at hae
        simp only [Option.map_some', Option.some.injEq, Prod.mk.injEq] at hae
        rw [← hae.1]
        exact List.mem_map_of_mem Prod.fst ha

theorem runCoerce_get_other {m m' : Meta}
    (h : runCoerce m = .ok m') {k : String} (hk : k ≠ "run") :
    pyGet m' k = pyGet m k := by
  unfold runCoerce at h
  cases hg : pyGet m "run" with
  | none =>
    rw [hg] at h
    cases h
    rfl
  | some v =>
    rw [hg] at h
    simp only [] at h
    by_cases ht : pyTruthy v = true
    · rw [if_pos ht] at h
      cases hi : pyInt v with
      | ok n =>
        rw [hi] at h
        simp only [] at h
        cases h
        rw [pyGet_pySet, if_neg (Ne.symm hk)]
      | error e => rw [hi] at h; simp only [] at h; cases h
    · rw [if_neg ht] at h
      cases h
      rfl

theorem defaultDatatype_get_ne {m : Meta} {k : String} (hk : k ≠ "datatype") :
    pyGet (defaultDatatype m) k = pyGet m k := by
  unfold defaultDatatype
  by_cases hd : (pyGet m "datatype").isNone
  · rw [if_pos hd, pyGet_pySet, if_neg (Ne.symm hk)]
  · rw [if_neg hd]

theorem defaultDatatype_get_of_isSome {m : Meta} {k : String}
    (hs : (pyGet m k).isSome) : pyGet (defaultDatatype m) k = pyGet m k := by
  by_cases hk : k = "datatype"
  · subst hk
    unfold defaultDatatype
    have hns : ¬ (pyGet m "datatype").isNone = true := by
      cases hg : pyGet m "datatype" with
      | none => rw [hg] at hs; simp at hs
      | some v => simp
    rw [if_neg hns]
  · exact defaultDatatype_get_ne hk

theorem preAdjustMeta_ok_structure {meta m3 : Meta}
    (h : preAdjustMeta meta = .ok m3) :
    ∃ meta1 taskVal,
      runCoerce (pyUpdate meta
        (protocolNameMeta (pyGet meta "ProtocolName"))) = .ok meta1
      ∧ pyGet meta1 "task" = some taskVal
      ∧ m3 = defaultDatatype (pySet meta1 "TaskName" taskVal) := by
  unfold preAdjustMeta at h
  cases hr : runCoerce (pyUpdate meta
      (protocolNameMeta (pyGet meta "ProtocolName"))) with
  | error e => rw [hr] at h; simp only [] at h; cases h
  | ok meta1 =>
    rw [hr] at h
    simp only [] at h
    cases hg : pyGet meta1 "task" with
    | none => rw [hg] at h; simp only [] at h; cases h
    | some taskVal =>
      rw [hg] at h
      simp only [] at h
      cases h
      exact ⟨meta1, taskVal, rfl, hg, rfl⟩

theorem preAdjustMeta_get_nonentity {meta m3 : Meta}
    (h : preAdjustMeta meta = .ok m3) {f : String}
    (hent : f ∉ ENTITIES.map Prod.fst)
    (hrun : f ≠ "run") (htask : f ≠ "TaskName") (hdt : f ≠ "datatype") :
    pyGet m3 f = pyGet meta f := by
  obtain ⟨meta1, taskVal, hr, _, hm3⟩ := preAdjustMeta_ok_structure h
  subst hm3
  rw [defaultDatatype_get_ne hdt, pyGet_pySet, if_neg (fun he => htask he.symm),
    runCoerce_get_other hr hrun, pyGet_pyUpdate]
  cases hl : lookupLast (protocolNameMeta (pyGet meta "ProtocolName")) f with
  | none => rfl
  | some v => exact absurd (protocolNameMeta_key_mem hl) hent

theorem adjustOneTime_get_other {m m' : Meta} {f : String} {c : ℤ}
    (h : adjustOneTime m f c = .ok m') {k : String} (hk : k ≠ f) :
    pyGet m' k = pyGet m k := by
  unfold adjustOneTime at h
  cases hg : pyGet m f with
  | none => rw [hg] at h; simp only [] at h; cases h; rfl
  | some v =>
    rw [hg] at h
    simp only [] at h
    cases hi : pyInt v with
    | error e => rw [hi] at h; simp only [] at h; cases h
    | ok value =>
      rw [hi] at h
      simp only [] at h
      by_cases h1 : value ≤ c
      · rw [if_pos h1] at h; cases h; rfl
      · rw [if_neg h1] at h
        by_cases h2 : Rat.divInt value 1000 ≤ (c : ℚ)
        · rw [if_pos h2] at h
          cases h
          rw [pyGet_pySet, if_neg (Ne.symm hk)]
        · rw [if_neg h2] at h; cases h

theorem adjustOneTime_of_le {m : Meta} {f : String} {c : ℤ} {v : PyVal} {i : ℤ}
    (hg : pyGet m f = some v) (hi : pyInt v = .ok i) (hle : i ≤ c) :
    adjustOneTime m f c = .ok m := by
  unfold adjustOneTime
  rw [hg]
  simp only []
  rw [hi]
  simp only []
  rw [if_pos hle]

theorem adjustOneTime_of_convert {m : Meta} {f : String} {c : ℤ} {v : PyVal}
    {i : ℤ} (hg : pyGet m f = some v) (hi : pyInt v = .ok i)
    (hgt : c < i) (hq : Rat.divInt i 1000 ≤ (c : ℚ)) :
    adjustOneTime m f c = .ok (pySet m f (.float (Rat.divInt i 1000))) := by
  unfold adjustOneTime
  rw [hg]
  simp only []
  rw [hi]
  simp only []
  rw [if_neg (not_le.mpr hgt), if_pos hq]

theorem adjustOneTime_of_fail {m : Meta} {f : String} {c : ℤ} {v : PyVal}
    {i : ℤ} (hg : pyGet m f = some v) (hi : pyInt v = .ok i)
    (hgt : c < i) (hq : (c : ℚ) < Rat.divInt i 1000) :
    adjustOneTime m f c = .error .validationError := by
  unfold adjustOneTime
  rw [hg]
  simp only []
  rw [hi]
  simp only []
  rw [if_neg (not_le.mpr hgt), if_neg (not_le.mpr hq)]

theorem squeezeImage_shape (img : NiftiImage) :
    (squeezeImage img).shape = squeezeShape img.shape := by
  unfold squeezeImage
  by_cases h : squeezeShape img.shape = img.shape
  · rw [if_pos h]
    exact h.symm
  · rw [if_neg h]

theorem finishImage_ok_meta {img : NiftiImage} {meta ds : Meta}
    {inc : BidsIncremental} (h : finishImage img meta ds = .ok inc) :
    inc.imgMetadata = meta := by
  unfold finishImage at h
  by_cases h3 : (squeezeImage img).shape.length < 3
  · rw [if_pos h3] at h; cases h
  · rw [if_neg h3] at h
    by_cases he : (squeezeImage img).shape.length = 3
    · rw [if_pos he] at h
      cases hg : pyGet meta "RepetitionTime" with
      | none => rw [hg] at h; simp only [] at h; cases h
      | some rtVal =>
        rw [hg] at h
        simp only [] at h
        cases hc : pyFloatCast rtVal with
        | error e => rw [hc] at h; simp only [] at h; cases h
        | ok q => rw [hc] at h; simp only [] at h; cases h; rfl
    · rw [if_neg he] at h
      by_cases h4 : (squeezeImage img).shape.length = 4
      · rw [if_pos h4] at h; cases h; rfl
      · rw [if_neg h4] at h; cases h

theorem finishImage_ok_shape {img : NiftiImage} {meta ds : Meta}
    {inc : BidsIncremental} (h : finishImage img meta ds = .ok inc) :
    inc.image.shape.length = 4
    ∧ ((squeezeShape img.shape).length = 3 →
        inc.image.shape = squeezeShape img.shape ++ [1]) := by
  unfold finishImage at h
  by_cases h3 : (squeezeImage img).shape.length < 3
  · rw [if_pos h3] at h; cases h
  · rw [if_neg h3] at h
    by_cases he : (squeezeImage img).shape.length = 3
    · rw [if_pos he] at h
      cases hg : pyGet meta "RepetitionTime" with
      | none => rw [hg] at h; simp only [] at h; cases h
      | some rtVal =>
        rw [hg] at h
        simp only [] at h
        cases hc : pyFloatCast rtVal with
        | error e => rw [hc] at h; simp only [] at h; cases h
        | ok q =>
          rw [hc] at h
          simp only [] at h
          cases h
          constructor
          · show ((squeezeImage img).shape ++ [1]).length = 4
            rw [List.length_append, he]
            rfl
          · intro _
            show (squeezeImage img).shape ++ [1] = squeezeShape img.shape ++ [1]
            rw [squeezeImage_shape]
    · rw [if_neg he] at h
      by_cases h4 : (squeezeImage img).shape.length = 4
      · rw [if_pos h4] at h
        cases h
        refine ⟨by rw [squeezeImage_shape] at h4 ⊢; exact h4, fun hc => ?_⟩
        rw [squeezeImage_shape] at he
        exact absurd hc he
      · rw [if_neg h4] at h; cases h

theorem mkBidsIncremental_ok_structure {img : NiftiImage} {meta : Meta}
    {ds : Option Meta} {inc : BidsIncremental}
    (h : mkBidsIncremental (some img) meta ds = .ok inc) :
    missingImageMetadata meta = []
    ∧ datasetDescMissing ds = false
    ∧ ∃ m3 m4, preAdjustMeta meta = .ok m3
        ∧ adjustTimeUnits m3 = .ok m4
        ∧ finishImage img m4 (dsMetaOf ds) = .ok inc := by
  unfold mkBidsIncremental at h
  simp only [] at h
  by_cases h1 : missingImageMetadata meta ≠ []
  · rw [if_pos h1] at h; cases h
  · rw [if_neg h1] at h
    by_cases h2 : datasetDescMissing ds = true
    · rw [if_pos h2] at h; cases h
    · rw [if_neg h2] at h
      refine ⟨not_ne_iff.mp h1, Bool.not_eq_true _ ▸ h2, ?_⟩
      cases hp : preAdjustMeta meta with
      | error e => rw [hp] at h; simp only [] at h; cases h
      | ok m3 =>
        rw [hp] at h
        simp only [] at h
        cases ha : adjustTimeUnits m3 with
        | error e => rw [ha] at h; simp only [] at h; cases h
        | ok m4 =>
          rw [ha] at h
          simp only [] at h
          exact ⟨m3, m4, rfl, ha, h⟩

theorem missingImageMetadata_nil_isSome {meta : Meta}
    (h : missingImageMetadata meta = []) :
    ∀ f ∈ REQUIRED_IMAGE_METADATA, (pyGet meta f).isSome := by
  intro f hf
  by_contra hne
  have hnone : (pyGet meta f).isNone := by
    cases hg : pyGet meta f with
    | none => simp
    | some v => rw [hg] at hne; simp at hne
  have : f ∈ missingImageMetadata meta := by
    unfold missingImageMetadata
    rw [List.mem_filter]
    exact ⟨hf, hnone⟩
  rw [h] at this
  simp at this

/-- The `fieldToMaxValue` table of the time-unit loop. -/
def fieldToMaxValue : List (String × ℤ) :=
  [("RepetitionTime", 100), ("EchoTime", 1)]

theorem pySet_isSome {m : Meta} {k' : String} (k : String) (v : PyVal)
    (h : (pyGet m k').isSome) : (pyGet (pySet m k v) k').isSome := by
  rw [pyGet_pySet]
  by_cases hk : k = k'
  · rw [if_pos hk]; rfl
  · rw [if_neg hk]; exact h

theorem pyUpdate_isSome {m : Meta} {k : String} (vs : Meta)
    (h : (pyGet m k).isSome) : (pyGet (pyUpdate m vs) k).isSome := by
  rw [pyGet_pyUpdate]
  cases hl : lookupLast vs k with
  | none => exact h
  | some v => rfl

theorem runCoerce_ok_cases {m m' : Meta} (h : runCoerce m = .ok m') :
    m' = m ∨ ∃ n, m' = pySet m "run" (PyVal.int n) := by
  unfold runCoerce at h
  cases hg : pyGet m "run" with
  | none => rw [hg] at h; cases h; exact Or.inl rfl
  | some v =>
    rw [hg] at h
    simp only [] at h
    by_cases ht : pyTruthy v = true
    · rw [if_pos ht] at h
      cases hi : pyInt v with
      | ok n =>
        rw [hi] at h
        simp only [] at h
        cases h
        exact Or.inr ⟨n, rfl⟩
      | error e => rw [hi] at h; simp only [] at h; cases h
    · rw [if_neg ht] at h
      cases h
      exact Or.inl rfl

theorem adjustOneTime_ok_cases {m m' : Meta} {f : String} {c : ℤ}
    (h : adjustOneTime m f c = .ok m') :
    m' = m ∨ ∃ q, m' = pySet m f (PyVal.float q) := by
  unfold adjustOneTime at h
  cases hg : pyGet m f with
  | none => rw [hg] at h; cases h; exact Or.inl rfl
  | some v =>
    rw [hg] at h
    simp only [] at h
    cases hi : pyInt v with
    | error e => rw [hi] at h; simp only [] at h; cases h
    | ok value =>
      rw [hi] at h
      simp only [] at h
      by_cases h1 : value ≤ c
      · rw [if_pos h1] at h; cases h; exact Or.inl rfl
      · rw [if_neg h1] at h
        by_cases h2 : Rat.divInt value 1000 ≤ (c : ℚ)
        · rw [if_pos h2] at h; cases h; exact Or.inr ⟨_, rfl⟩
        · rw [if_neg h2] at h; cases h

theorem defaultDatatype_isSome {m : Meta} {k : String}
    (h : (pyGet m k).isSome) : (pyGet (defaultDatatype m) k).isSome := by
  unfold defaultDatatype
  by_cases hd : (pyGet m "datatype").isNone
  · rw [if_pos hd]; exact pySet_isSome _ _ h
  · rw [if_neg hd]; exact h

theorem preAdjustMeta_isSome {meta m3 : Meta}
    (h : preAdjustMeta meta = .ok m3) {k : String}
    (hs : (pyGet meta k).isSome) : (pyGet m3 k).isSome := by
  obtain ⟨meta1, taskVal, hr, _, hm3⟩ := preAdjustMeta_ok_structure h
  subst hm3
  apply defaultDatatype_isSome
  apply pySet_isSome
  rcases runCoerce_ok_cases hr with he | ⟨n, he⟩ <;> subst he
  · exact pyUpdate_isSome _ hs
  · exact pySet_isSome _ _ (pyUpdate_isSome _ hs)

theorem adjustTimeUnits_isSome {m3 m4 : Meta}
    (h : adjustTimeUnits m3 = .ok m4) {k : String}
    (hs : (pyGet m3 k).isSome) : (pyGet m4 k).isSome := by
  unfold adjustTimeUnits at h
  cases h1 : adjustOneTime m3 "RepetitionTime" 100 with
  | error e => rw [h1] at h; cases h
  | ok m1 =>
    rw [h1] at h
    simp only [] at h
    have hs1 : (pyGet m1 k).isSome := by
      rcases adjustOneTime_ok_cases h1 with he | ⟨q, he⟩ <;> subst he
      · exact hs
      · exact pySet_isSome _ _ hs
    rcases adjustOneTime_ok_cases h with he | ⟨q, he⟩ <;> subst he
    · exact hs1
    · exact pySet_isSome _ _ hs1

theorem adjustTimeUnits_get_time {m3 m4 : Meta} {f : String} {c : ℤ}
    {v : PyVal} {i : ℤ} (hf : (f, c) ∈ fieldToMaxValue)
    (ha : adjustTimeUnits m3 = .ok m4)
    (hg : pyGet m3 f = some v) (hi : pyInt v = .ok i) :
    (i ≤ c → pyGet m4 f = some v)
    ∧ (c < i → Rat.divInt i 1000 ≤ (c : ℚ) →
        pyGet m4 f = some (.float (Rat.divInt i 1000))) := by
  have hf2 : (f = "RepetitionTime" ∧ c = 100) ∨ (f = "EchoTime" ∧ c = 1) := by
    simpa [fieldToMaxValue, Prod.ext_iff] using hf
  unfold adjustTimeUnits at ha
  rcases hf2 with ⟨hfe, hce⟩ | ⟨hfe, hce⟩ <;> subst hfe <;> subst hce
  · -- RepetitionTime: first step determines the value, second keeps it
    constructor
    · intro hle
      rw [adjustOneTime_of_le hg hi hle] at ha
      simp only [] at ha
      rw [adjustOneTime_get_other ha (by decide), hg]
    · intro hgt hq
      rw [adjustOneTime_of_convert hg hi hgt hq] at ha
      simp only [] at ha
      rw [adjustOneTime_get_other ha (by decide), pyGet_pySet, if_pos rfl]
  · -- EchoTime: first step keeps the key, second determines it
    cases h1 : adjustOneTime m3 "RepetitionTime" 100 with
    | error e => rw [h1] at ha; cases ha
    | ok m1 =>
      rw [h1] at ha
      simp only [] at ha
      have hg1 : pyGet m1 "EchoTime" = some v := by
        rw [adjustOneTime_get_other h1 (by decide), hg]
      constructor
      · intro hle
        rw [adjustOneTime_of_le hg1 hi hle] at ha
        cases ha
        exact hg1
      · intro hgt hq
        rw [adjustOneTime_of_convert hg1 hi hgt hq] at ha
        cases ha
        rw [pyGet_pySet, if_pos rfl]

theorem adjustTimeUnits_not_ok {m3 : Meta} {f : String} {c : ℤ}
    {v : PyVal} {i : ℤ} (hf : (f, c) ∈ fieldToMaxValue)
    (hg : pyGet m3 f = some v) (hi : pyInt v = .ok i)
    (hgt : c < i) (hq : (c : ℚ) < Rat.divInt i 1000) :
    ∀ m4, adjustTimeUnits m3 ≠ .ok m4 := by
  have hf2 : (f = "RepetitionTime" ∧ c = 100) ∨ (f = "EchoTime" ∧ c = 1) := by
    simpa [fieldToMaxValue, Prod.ext_iff] using hf
  intro m4
  unfold adjustTimeUnits
  rcases hf2 with ⟨hfe, hce⟩ | ⟨hfe, hce⟩ <;> subst hfe <;> subst hce
  · rw [adjustOneTime_of_fail hg hi hgt hq]
    intro hcon
    cases hcon
  · cases h1 : adjustOneTime m3 "RepetitionTime" 100 with
    | error e =>
      intro hcon
      cases hcon
    | ok m1 =>
      simp only []
      have hg1 : pyGet m1 "EchoTime" = some v := by
        rw [adjustOneTime_get_other h1 (by decide), hg]
      rw [adjustOneTime_of_fail hg1 hi hgt hq]
      intro hcon
      cases hcon

theorem adjustTimeUnits_fail_rt {m3 : Meta} {v : PyVal} {i : ℤ}
    (hg : pyGet m3 "RepetitionTime" = some v) (hi : pyInt v = .ok i)
    (hgt : 100 < i) (hq : (100 : ℚ) < Rat.divInt i 1000) :
    adjustTimeUnits m3 = .error .validationError := by
  unfold adjustTimeUnits
  rw [adjustOneTime_of_fail hg hi hgt hq]

theorem adjustTimeUnits_fail_et {m3 : Meta} {v vr : PyVal} {i ir : ℤ}
    (hgr : pyGet m3 "RepetitionTime" = some vr) (hir : pyInt vr = .ok ir)
    (hrok : ir ≤ 100 ∨ (100 < ir ∧ Rat.divInt ir 1000 ≤ (100 : ℚ)))
    (hg : pyGet m3 "EchoTime" = some v) (hi : pyInt v = .ok i)
    (hgt : 1 < i) (hq : (1 : ℚ) < Rat.divInt i 1000) :
    adjustTimeUnits m3 = .error .validationError := by
  unfold adjustTimeUnits
  rcases hrok with hle | ⟨hc1, hc2⟩
  · rw [adjustOneTime_of_le hgr hir hle]
    simp only []
    rw [adjustOneTime_of_fail hg hi hgt hq]
  · rw [adjustOneTime_of_convert hgr hir hc1 hc2]
    simp only []
    have hg1 : pyGet (pySet m3 "RepetitionTime" (.float (Rat.divInt ir 1000)))
        "EchoTime" = some v := by
      rw [pyGet_pySet, if_neg (by decide)]
      exact hg
    rw [adjustOneTime_of_fail hg1 hi hgt hq]

theorem adjustTimeUnits_get_other {m3 m4 : Meta}
    (h : adjustTimeUnits m3 = .ok m4) {k : String}
    (h1 : k ≠ "RepetitionTime") (h2 : k ≠ "EchoTime") :
    pyGet m4 k = pyGet m3 k := by
  unfold adjustTimeUnits at h
  cases hr : adjustOneTime m3 "RepetitionTime" 100 with
  | error e => rw [hr] at h; cases h
  | ok m1 =>
    rw [hr] at h
    simp only [] at h
    rw [adjustOneTime_get_other h h2, adjustOneTime_get_other hr h1]

theorem preAdjustMeta_eval_clean {meta : Meta} {tv : PyVal}
    (hP : pyGet meta "ProtocolName" = none)
    (hR : pyGet meta "run" = none)
    (hT : pyGet meta "task" = some tv) :
    preAdjustMeta meta = .ok (defaultDatatype (pySet meta "TaskName" tv)) := by
  unfold preAdjustMeta
  rw [hP]
  have h1 : runCoerce (pyUpdate meta (protocolNameMeta none)) = .ok meta := by
    show runCoerce meta = .ok meta
    unfold runCoerce
    rw [hR]
  rw [h1]
  simp only []
  rw [hT]

theorem mkBidsIncremental_eval {img : NiftiImage} {meta m3 : Meta}
    {ds : Option Meta}
    (h1 : missingImageMetadata meta = [])
    (h2 : datasetDescMissing ds = false)
    (h3 : preAdjustMeta meta = .ok m3) :
    mkBidsIncremental (some img) meta ds
      = match adjustTimeUnits m3 with
        | .error e => .error e
        | .ok m4 => finishImage img m4 (dsMetaOf ds) := by
  unfold mkBidsIncremental
  simp only []
  rw [if_neg (not_ne_iff.mpr h1), if_neg (by rw [h2]; exact Bool.false_ne_true),
    h3]

theorem mk_get_time_aux {img : NiftiImage} {meta : Meta} {ds : Option Meta}
    {inc : BidsIncremental} {f : String} {c : ℤ} {v : PyVal} {i : ℤ}
    (hf : (f, c) ∈ fieldToMaxValue)
    (h : mkBidsIncremental (some img) meta ds = .ok inc)
    (hg : pyGet meta f = some v) (hi : pyInt v = .ok i) :
    (i ≤ c → pyGet inc.imgMetadata f = some v)
    ∧ (c < i → Rat.divInt i 1000 ≤ (c : ℚ) →
        pyGet inc.imgMetadata f = some (.float (Rat.divInt i 1000))) := by
  obtain ⟨hm, hd, m3, m4, hpre, hadj, hfin⟩ := mkBidsIncremental_ok_structure h
  have hf2 : (f = "RepetitionTime" ∧ c = 100) ∨ (f = "EchoTime" ∧ c = 1) := by
    simpa [fieldToMaxValue, Prod.ext_iff] using hf
  have hside : f ∉ ENTITIES.map Prod.fst ∧ f ≠ "run"
      ∧ f ≠ "TaskName" ∧ f ≠ "datatype" := by
    rcases hf2 with ⟨he, -⟩ | ⟨he, -⟩ <;> subst he <;>
      exact ⟨by decide, by decide, by decide, by decide⟩
  have hg3 : pyGet m3 f = some v := by
    rw [preAdjustMeta_get_nonentity hpre hside.1 hside.2.1 hside.2.2.1
      hside.2.2.2]
    exact hg
  rw [finishImage_ok_meta hfin]
  exact adjustTimeUnits_get_time hf hadj hg3 hi

/-! ## Sample data for witnesses and counterexamples -/

/-- A plain NIfTI header used to build sample images. -/
def hdrBase : NiftiHeader :=
  { intent_p1 := .num 0, intent_p2 := .num 0, intent_p3 := .num 0,
    intent_code := .num 0, dim_info := .num 0, datatype := .num 16,
    bitpix := .num 32, xyzt_units := .num 10, slice_duration := .num 0,
    toffset := .num 0, scl_slope := .nan, scl_inter := .nan,
    qform_code := .num 1, quatern_b := .num 0, quatern_c := .num 0,
    quatern_d := .num 0, qoffset_x := .num 0, qoffset_y := .num 0,
    qoffset_z := .num 0, sform_code := .num 1,
    srow_x := [.num 2, .num 0, .num 0, .num 0],
    srow_y := [.num 0, .num 2, .num 0, .num 0],
    srow_z := [.num 0, .num 0, .num 2, .num 0],
    dim := [3, 2, 2, 2, 1, 1, 1, 1],
    pixdim := [.num 1, .num 2, .num 2, .num 2, .num 1, .num 1, .num 1, .num 1] }

/-- A 2×2×2 3-D sample image. -/
def img3D : NiftiImage :=
  { shape := [2, 2, 2], header := hdrBase,
    frames := [[1, 2, 3, 4, 5, 6, 7, 8]] }

/-- A 2×2×2×3 4-D sample image (three volumes along the time axis). -/
def img4D3 : NiftiImage :=
  { shape := [2, 2, 2, 3],
    header := { hdrBase with dim := [4, 2, 2, 2, 3, 1, 1, 1] },
    frames := [[1, 1, 1, 1, 1, 1, 1, 1], [2, 2, 2, 2, 2, 2, 2, 2],
               [3, 3, 3, 3, 3, 3, 3, 3]] }

/-- Sample metadata: all required fields, `RepetitionTime` in
milliseconds, `EchoTime` already in seconds. -/
def metaBase : Meta :=
  [("subject", .str "01"), ("task", .str "story"), ("suffix", .str "bold"),
   ("RepetitionTime", .int 1500), ("EchoTime", .float (Rat.divInt 1 2))]

/-- Sample metadata whose `EchoTime` is 1.5 s: above the 1 s cap, but
`int(1.5) = 1` passes the truncated comparison. -/
def metaEchoTime : Meta :=
  [("subject", .str "01"), ("task", .str "story"), ("suffix", .str "bold"),
   ("RepetitionTime", .int 2), ("EchoTime", .float (Rat.divInt 3 2))]

/-- Sample metadata carrying a `ProtocolName` whose `task-B` token
collides with the caller's explicit `task = "A"`. -/
def metaProto : Meta :=
  [("ProtocolName", .str "task-B"), ("subject", .str "01"),
   ("task", .str "A"), ("suffix", .str "bold"),
   ("RepetitionTime", .int 2), ("EchoTime", .float (Rat.divInt 1 2))]

/-- Fallback incremental for `forceOk`. -/
def incDefault : BidsIncremental :=
  { imgMetadata := [], image := { shape := [], header := hdrBase, frames := [] },
    datasetMetadata := [], readme := "", version := 0 }

/-- Extract the value of a successful construction. -/
def forceOk : Except PyErr BidsIncremental → BidsIncremental
  | .ok inc => inc
  | .error _ => incDefault

/-- The incremental constructed from the 3-D sample. -/
def inc3D : BidsIncremental := forceOk (mkBidsIncremental (some img3D) metaBase none)

/-- The incremental constructed from the `ProtocolName` sample. -/
def incProto : BidsIncremental :=
  forceOk (mkBidsIncremental (some img4D3) metaProto none)

/-! ## Claim C1 -/

/-- C1 (amended): every successfully constructed Incremental has a
4-dimensional image, and when the squeezed input is 3-D the 4th
dimension is a trailing singleton; an input whose time dimension has
length greater than 1 keeps that length
(see the counterexample). -/
theorem incremental_image_four_dimensional :
    (∀ img meta ds inc, mkBidsIncremental (some img) meta ds = .ok inc →
      (imageDimensions inc).length = 4)
    ∧ (∀ img meta ds inc, mkBidsIncremental (some img) meta ds = .ok inc →
        (squeezeShape img.shape).length = 3 →
        imageDimensions inc = squeezeShape img.shape ++ [1]) := by
  constructor
  · intro img meta ds inc h
    obtain ⟨-, -, m3, m4, -, -, hfin⟩ := mkBidsIncremental_ok_structure h
    exact (finishImage_ok_shape hfin).1
  · intro img meta ds inc h h3
    obtain ⟨-, -, m3, m4, -, -, hfin⟩ := mkBidsIncremental_ok_structure h
    exact (finishImage_ok_shape hfin).2 h3

/-- C1 witness: the theorem applied to the concrete 3-D sample. -/
theorem incremental_image_four_dimensional_witness :
    (imageDimensions inc3D).length = 4
    ∧ imageDimensions inc3D = squeezeShape img3D.shape ++ [1] :=
  ⟨incremental_image_four_dimensional.1 img3D metaBase none inc3D (by rfl),
   incremental_image_four_dimensional.2 img3D metaBase none inc3D (by rfl)
     (by rfl)⟩

/-- C1 counterexample: constructing from a 2×2×2×3 image succeeds and
the 4th dimension of the result is 3, not 1 — the claimed invariant
`image_dimensions()[3] == 1` fails for inputs with more than one
volume along the time axis. -/
theorem incremental_fourth_dim_one_counterexample :
    (mkBidsIncremental (some img4D3) metaBase none).map imageDimensions
      = .ok [2, 2, 2, 3] ∧ (3 : Nat) ≠ 1 := by
  constructor
  · rfl
  · decide

/-! ## Claim C3 -/

/-- C3 (amended): the time-unit normalization compares the Python
`int()` truncation of the stored value with the cap, not the value
itself: if `int(v) ≤ cap` the stored value is preserved unchanged
(even when `v` itself exceeds the cap); if `int(v) > cap` and
`int(v)/1000 ≤ cap` the value is replaced by `int(v)/1000`; if
neither holds, construction fails — with a Validation error on the
clean path (no `ProtocolName`, no `run`). -/
theorem time_unit_truncation_spec :
    (∀ img meta ds inc f c v i, (f, c) ∈ fieldToMaxValue →
      mkBidsIncremental (some img) meta ds = .ok inc →
      pyGet meta f = some v → pyInt v = .ok i → i ≤ c →
      pyGet inc.imgMetadata f = some v)
    ∧ (∀ img meta ds inc f c v i, (f, c) ∈ fieldToMaxValue →
        mkBidsIncremental (some img) meta ds = .ok inc →
        pyGet meta f = some v → pyInt v = .ok i → c < i →
        Rat.divInt i 1000 ≤ (c : ℚ) →
        pyGet inc.imgMetadata f = some (.float (Rat.divInt i 1000)))
    ∧ (∀ img meta ds f c v i, (f, c) ∈ fieldToMaxValue →
        pyGet meta f = some v → pyInt v = .ok i → c < i →
        (c : ℚ) < Rat.divInt i 1000 →
        ∀ inc, mkBidsIncremental (some img) meta ds ≠ .ok inc)
    ∧ (∀ img (meta : Meta) ds v i,
        missingImageMetadata meta = [] → datasetDescMissing ds = false →
        pyGet meta "ProtocolName" = none → pyGet meta "run" = none →
        pyGet meta "RepetitionTime" = some v → pyInt v = .ok i →
        100 < i → (100 : ℚ) < Rat.divInt i 1000 →
        mkBidsIncremental (some img) meta ds = .error .validationError)
    ∧ (∀ img (meta : Meta) ds v i vr ir,
        missingImageMetadata meta = [] → datasetDescMissing ds = false →
        pyGet meta "ProtocolName" = none → pyGet meta "run" = none →
        pyGet meta "RepetitionTime" = some vr → pyInt vr = .ok ir →
        ir ≤ 100 →
        pyGet meta "EchoTime" = some v → pyInt v = .ok i →
        1 < i → (1 : ℚ) < Rat.divInt i 1000 →
        mkBidsIncremental (some img) meta ds = .error .validationError) := by
  refine ⟨?_, ?_, ?_, ?_, ?_⟩
  · intro img meta ds inc f c v i hf h hg hi hle
    exact (mk_get_time_aux hf h hg hi).1 hle
  · intro img meta ds inc f c v i hf h hg hi hgt hq
    exact (mk_get_time_aux hf h hg hi).2 hgt hq
  · intro img meta ds f c v i hf hg hi hgt hq inc h
    obtain ⟨hm, hd, m3, m4, hpre, hadj, -⟩ := mkBidsIncremental_ok_structure h
    have hf2 : (f = "RepetitionTime" ∧ c = 100) ∨ (f = "EchoTime" ∧ c = 1) := by
      simpa [fieldToMaxValue, Prod.ext_iff] using hf
    have hside : f ∉ ENTITIES.map Prod.fst ∧ f ≠ "run"
        ∧ f ≠ "TaskName" ∧ f ≠ "datatype" := by
      rcases hf2 with ⟨he, -⟩ | ⟨he, -⟩ <;> subst he <;>
        exact ⟨by decide, by decide, by decide, by decide⟩
    have hg3 : pyGet m3 f = some v := by
      rw [preAdjustMeta_get_nonentity hpre hside.1 hside.2.1 hside.2.2.1
        hside.2.2.2]
      exact hg
    exact adjustTimeUnits_not_ok hf hg3 hi hgt hq m4 hadj
  · intro img meta ds v i hm hd hP hR hg hi hgt hq
    have hts : (pyGet meta "task").isSome :=
      missingImageMetadata_nil_isSome hm "task" (by decide)
    obtain ⟨tv, htv⟩ := Option.isSome_iff_exists.mp hts
    have hpre := preAdjustMeta_eval_clean hP hR htv
    rw [mkBidsIncremental_eval hm hd hpre]
    have hg3 : pyGet (defaultDatatype (pySet meta "TaskName" tv))
        "RepetitionTime" = some v := by
      rw [defaultDatatype_get_ne (by decide), pyGet_pySet, if_neg (by decide)]
      exact hg
    rw [adjustTimeUnits_fail_rt hg3 hi hgt hq]
  · intro img meta ds v i vr ir hm hd hP hR hgr hir hrle hg hi hgt hq
    have hts : (pyGet meta "task").isSome :=
      missingImageMetadata_nil_isSome hm "task" (by decide)
    obtain ⟨tv, htv⟩ := Option.isSome_iff_exists.mp hts
    have hpre := preAdjustMeta_eval_clean hP hR htv
    rw [mkBidsIncremental_eval hm hd hpre]
    have hg3 : pyGet (defaultDatatype (pySet meta "TaskName" tv))
        "EchoTime" = some v := by
      rw [defaultDatatype_get_ne (by decide), pyGet_pySet, if_neg (by decide)]
      exact hg
    have hgr3 : pyGet (defaultDatatype (pySet meta "TaskName" tv))
        "RepetitionTime" = some vr := by
      rw [defaultDatatype_get_ne (by decide), pyGet_pySet, if_neg (by decide)]
      exact hgr
    rw [adjustTimeUnits_fail_et hgr3 hir (Or.inl hrle) hg3 hi hgt hq]

/-- C3 witness: concrete instances — `RepetitionTime = 1500` ms is
converted to 1.5 s (second conjunct) and `EchoTime = 0.5` s is
preserved (first conjunct); a `RepetitionTime` of 200000 fails
construction with a Validation error (fourth conjunct). -/
theorem time_unit_truncation_spec_witness :
    pyGet inc3D.imgMetadata "RepetitionTime" = some (.float (Rat.divInt 3 2))
    ∧ pyGet inc3D.imgMetadata "EchoTime" = some (.float (Rat.divInt 1 2))
    ∧ mkBidsIncremental (some img3D)
        [("subject", .str "01"), ("task", .str "t"), ("suffix", .str "bold"),
         ("RepetitionTime", .int 200000), ("EchoTime", .float (Rat.divInt 1 2))] none
        = .error .validationError := by
  refine ⟨?_, ?_, ?_⟩
  · have := time_unit_truncation_spec.2.1 img3D metaBase none inc3D
      "RepetitionTime" 100 (.int 1500) 1500 (by decide) (by rfl) (by rfl)
      (by rfl) (by decide) (by decide)
    have he : Rat.divInt 1500 1000 = Rat.divInt 3 2 := by decide
    rw [he] at this
    exact this
  · exact time_unit_truncation_spec.1 img3D metaBase none inc3D
      "EchoTime" 1 (.float (Rat.divInt 1 2)) 0 (by decide) (by rfl) (by rfl) (by rfl)
      (by decide)
  · exact time_unit_truncation_spec.2.2.2.1 img3D _ none (.int 200000) 200000
      (by rfl) (by rfl) (by rfl) (by rfl) (by rfl) (by rfl) (by decide)
      (by decide)

/-- C3 counterexample: `EchoTime = 1.5` s exceeds the 1 s cap and its
quotient by 1000 is below the cap, so the claim requires it to be
replaced by 0.0015 — but construction succeeds with the value
preserved unchanged, because the code compares `int(1.5) = 1` with
the cap. -/
theorem time_unit_echoTime_counterexample :
    (mkBidsIncremental (some img3D) metaEchoTime none).map
        (fun inc => pyGet inc.imgMetadata "EchoTime")
      = .ok (some (.float (Rat.divInt 3 2)))
    ∧ PyVal.float (Rat.divInt 3 2) ≠ PyVal.float (Rat.divInt 3 2000) := by
  constructor
  · rfl
  · decide

/-! ## Claim C4 -/

/-- C4 (amended): `__init__` merges the tokens parsed from
`ProtocolName` OVER (not under) the caller's map via `dict.update`:
for every entity key produced by the parse — also when the caller's
map binds the same key — the constructed metadata holds the parsed
value, not the caller's (`run` is additionally coerced to int and is
excluded here). -/
theorem protocolName_update_overwrites :
    ∀ img meta ds inc k v w,
      mkBidsIncremental (some img) meta ds = .ok inc →
      lookupLast (protocolNameMeta (pyGet meta "ProtocolName")) k = some v →
      pyGet meta k = some w → k ≠ "run" →
      pyGet inc.imgMetadata k = some v := by
  intro img meta ds inc k v w h hl hw hkrun
  obtain ⟨hm, hd, m3, m4, hpre, hadj, hfin⟩ := mkBidsIncremental_ok_structure h
  have hkent : k ∈ ENTITIES.map Prod.fst := protocolNameMeta_key_mem hl
  have hkTN : k ≠ "TaskName" := by
    intro he; subst he; revert hkent; decide
  have hkRT : k ≠ "RepetitionTime" := by
    intro he; subst he; revert hkent; decide
  have hkET : k ≠ "EchoTime" := by
    intro he; subst he; revert hkent; decide
  obtain ⟨meta1, tv, hr, htask, hm3⟩ := preAdjustMeta_ok_structure hpre
  have h1 : pyGet meta1 k = some v := by
    rw [runCoerce_get_other hr hkrun, pyGet_pyUpdate, hl]
    rfl
  have hps : pyGet (pySet meta1 "TaskName" tv) k = some v := by
    rw [pyGet_pySet, if_neg (Ne.symm hkTN)]
    exact h1
  have h3 : pyGet m3 k = some v := by
    subst hm3
    rw [defaultDatatype_get_of_isSome (by rw [hps]; rfl), hps]
  rw [finishImage_ok_meta hfin, adjustTimeUnits_get_other hadj hkRT hkET, h3]

/-- C4 witness: the theorem applied to the `task-B` sample — the
parsed value `"B"` wins over the caller's `"A"`. -/
theorem protocolName_update_overwrites_witness :
    pyGet incProto.imgMetadata "task" = some (.str "B") :=
  protocolName_update_overwrites img4D3 metaProto none incProto "task"
    (.str "B") (.str "A") (by rfl) (by rfl) (by rfl) (by decide)

/-- C4 counterexample: with caller value `task = "A"` and
`ProtocolName = "task-B"`, construction succeeds and the stored task
is the parsed `"B"`, not the caller's `"A"` — the claimed
"caller wins" precedence is reversed. -/
theorem protocolName_caller_precedence_counterexample :
    (mkBidsIncremental (some img4D3) metaProto none).map
        (fun inc => pyGet inc.imgMetadata "task")
      = .ok (some (.str "B"))
    ∧ PyVal.str "B" ≠ PyVal.str "A" := by
  constructor
  · rfl
  · decide

/-! ## Claim C10 -/

theorem mkBidsIncremental_ok_isSome {img : NiftiImage} {meta : Meta}
    {ds : Option Meta} {inc : BidsIncremental}
    (h : mkBidsIncremental (some img) meta ds = .ok inc) {k : String}
    (hs : (pyGet meta k).isSome) : (pyGet inc.imgMetadata k).isSome := by
  obtain ⟨-, -, m3, m4, hpre, hadj, hfin⟩ := mkBidsIncremental_ok_structure h
  rw [finishImage_ok_meta hfin]
  exact adjustTimeUnits_isSome hadj (preAdjustMeta_isSome hpre hs)

/-- C10: every successfully constructed Incremental carries the five
required metadata keys, and the invariant is preserved by the field
operations: `set_field` never removes a key, `remove_field` on a
required key raises `ValueError` whatever the strict flag (leaving
the object unchanged, as the raise precedes the pop), and a
successful `remove_field` keeps every required key. -/
theorem requiredMetadata_invariant :
    (∀ img meta ds inc, mkBidsIncremental (some img) meta ds = .ok inc →
      ∀ f ∈ REQUIRED_IMAGE_METADATA, (pyGet inc.imgMetadata f).isSome)
    ∧ (∀ inc f v strict inc', setMetadataField inc f v strict = .ok inc' →
        ∀ k, (pyGet inc.imgMetadata k).isSome →
          (pyGet inc'.imgMetadata k).isSome)
    ∧ (∀ inc f strict, f ∈ REQUIRED_IMAGE_METADATA →
        removeMetadataField inc f strict = .error .valueError)
    ∧ (∀ inc f strict inc', removeMetadataField inc f strict = .ok inc' →
        ∀ g ∈ REQUIRED_IMAGE_METADATA, (pyGet inc.imgMetadata g).isSome →
          (pyGet inc'.imgMetadata g).isSome) := by
  refine ⟨?_, ?_, ?_, ?_⟩
  · intro img meta ds inc h f hf
    obtain ⟨hm, -, -⟩ := mkBidsIncremental_ok_structure h
    exact mkBidsIncremental_ok_isSome h (missingImageMetadata_nil_isSome hm f hf)
  · intro inc f v strict inc' h k hs
    unfold setMetadataField at h
    by_cases h1 : (strict && !isBidsEntity f) = true
    · rw [if_pos h1] at h; cases h
    · rw [if_neg h1] at h
      by_cases h2 : f ≠ ""
      · rw [if_pos h2] at h
        cases h
        exact pySet_isSome _ _ hs
      · rw [if_neg h2] at h; cases h
  · intro inc f strict hf
    unfold removeMetadataField
    rw [if_pos hf]
  · intro inc f strict inc' h g hg hs
    unfold removeMetadataField at h
    by_cases h1 : f ∈ REQUIRED_IMAGE_METADATA
    · rw [if_pos h1] at h; cases h
    · rw [if_neg h1] at h
      by_cases h2 : (strict && !isBidsEntity f) = true
      · rw [if_pos h2] at h; cases h
      · rw [if_neg h2] at h
        cases h
        show (pyGet (pyPop inc.imgMetadata f) g).isSome
        rw [pyGet_pyPop]
        have hfg : f ≠ g := fun he => h1 (he ▸ hg)
        rw [if_neg hfg]
        exact hs

/-- The result of setting a non-entity scanner field on the sample. -/
def incSet : BidsIncremental :=
  forceOk (setMetadataField inc3D "FlipAngle" (.int 90) false)

/-- The result of a successful removal on the sample. -/
def incRem : BidsIncremental :=
  forceOk (removeMetadataField incSet "FlipAngle" false)

/-- C10 witness: the theorem applied to the concrete sample. -/
theorem requiredMetadata_invariant_witness :
    (pyGet inc3D.imgMetadata "subject").isSome
    ∧ (pyGet incSet.imgMetadata "subject").isSome
    ∧ removeMetadataField inc3D "subject" true = .error .valueError
    ∧ (pyGet incRem.imgMetadata "task").isSome := by
  have h1 := requiredMetadata_invariant.1 img3D metaBase none inc3D (by rfl)
    "subject" (by decide)
  have h2 := requiredMetadata_invariant.2.1 inc3D "FlipAngle" (.int 90) false
    incSet (by rfl) "subject" h1
  have h3 := requiredMetadata_invariant.2.2.1 inc3D "subject" true (by decide)
  have h4 := requiredMetadata_invariant.2.2.2 incSet "FlipAngle" false incRem
    (by rfl) "task"
    (by decide)
    (requiredMetadata_invariant.2.1 inc3D "FlipAngle" (.int 90) false incSet
      (by rfl) "task"
      (requiredMetadata_invariant.1 img3D metaBase none inc3D (by rfl) "task"
        (by decide)))
  exact ⟨h1, h2, h3, h4⟩

/-! ## Claim C9 -/

/-- C9: the regex class `[^a-zA-z]` (note the lower-case `z` after
`A-`) spans ASCII 65–122, so the substitution also keeps `[`, `\`,
`]`, `^`, `_` and the backquote: `dicom_field_to_bids` does NOT
return a letters-only string, contradicting its own docstring
("CamelCase alphanumeric") and the spec.  Evaluated at the failing
input `"Frame_of_Reference"`: the underscores are kept. -/
theorem makeDicomFieldBidsCompatible_regex_bug :
    makeDicomFieldBidsCompatible "Frame_of_Reference" = "Frame_of_Reference"
    ∧ "Frame_of_Reference".toList.all isAsciiLetter = false
    ∧ makeDicomFieldBidsCompatibleCached [] "Frame_of_Reference"
        = ("Frame_of_Reference",
           [("Frame_of_Reference", "Frame_of_Reference")])
    ∧ (makeDicomFieldBidsCompatibleCached
        [("Frame_of_Reference", "Frame_of_Reference")] "Frame_of_Reference").1
        = "Frame_of_Reference" := by
  refine ⟨by rfl, by decide, by rfl, by rfl⟩

/-! ## Claim C5 -/

/-- C5: `_metadataAppendCompatible` fails whenever a must-match field
is present in both dictionaries with differing values, fails whenever
a must-differ field (`AcquisitionTime`, `AcquisitionNumber`) is
present in both with equal values, and a key present in only one of
the two dictionaries never influences the outcome (dropping it
changes nothing). -/
theorem metadataAppendCompatible_spec :
    (∀ m1 m2 f v1 v2, f ∈ matchFields → pyGet m1 f = some v1 →
      pyGet m2 f = some v2 → v1 ≠ v2 →
      metadataAppendCompatible m1 m2 = false)
    ∧ (∀ m1 m2 f v, f ∈ differentFields → pyGet m1 f = some v →
        pyGet m2 f = some v → metadataAppendCompatible m1 m2 = false)
    ∧ (∀ m1 m2 k, pyGet m2 k = none →
        metadataAppendCompatible (pyPop m1 k) m2
          = metadataAppendCompatible m1 m2)
    ∧ (∀ m1 m2 k, pyGet m1 k = none →
        metadataAppendCompatible m1 (pyPop m2 k)
          = metadataAppendCompatible m1 m2) :=
  ⟨fun _ _ _ _ _ hf h1 h2 hne =>
      metadataAppendCompatible_false_of_match_diff hf h1 h2 hne,
   fun _ _ _ _ hf h1 h2 =>
      metadataAppendCompatible_false_of_differ_eq hf h1 h2,
   fun _ _ _ h => metadataAppendCompatible_pop_left h,
   fun _ _ _ h => metadataAppendCompatible_pop_right h⟩

/-- C5 witness: concrete instances — differing `Modality` fails,
equal `AcquisitionTime` fails, and a key present on one side only
(`Extra`) does not influence the verdict. -/
theorem metadataAppendCompatible_spec_witness :
    metadataAppendCompatible [("Modality", .str "MR")]
        [("Modality", .str "CT")] = false
    ∧ metadataAppendCompatible [("AcquisitionTime", .int 1000)]
        [("AcquisitionTime", .int 1000)] = false
    ∧ metadataAppendCompatible
        (pyPop [("Extra", PyVal.int 1), ("Modality", PyVal.str "MR")] "Extra")
        [("Modality", PyVal.str "MR")]
        = metadataAppendCompatible
            [("Extra", PyVal.int 1), ("Modality", PyVal.str "MR")]
            [("Modality", PyVal.str "MR")]
    ∧ metadataAppendCompatible [("Modality", PyVal.str "MR")]
        (pyPop [("Extra", PyVal.int 1), ("Modality", PyVal.str "MR")] "Extra")
        = metadataAppendCompatible [("Modality", PyVal.str "MR")]
            [("Extra", PyVal.int 1), ("Modality", PyVal.str "MR")] :=
  ⟨metadataAppendCompatible_spec.1 _ _ "Modality" (.str "MR") (.str "CT")
      (by decide) (by rfl) (by rfl) (by decide),
   metadataAppendCompatible_spec.2.1 _ _ "AcquisitionTime" (.int 1000)
      (by decide) (by rfl) (by rfl),
   metadataAppendCompatible_spec.2.2.1 _ _ "Extra" (by rfl),
   metadataAppendCompatible_spec.2.2.2 _ _ "Extra" (by rfl)⟩

/-! ## Claim C8 -/

/-- C8 (amended): `_imagesAppendCompatible` is reflexive on every
header whose `pixdim` is free of `NaN` (must-match fields may still
hold `NaN`, thanks to `equal_nan=True`); reflexivity FAILS on a
`NaN`-bearing `pixdim` because `np.array_equal` is `NaN`-sensitive,
and full symmetry fails because `np.allclose`'s relative tolerance
is computed from its second argument only — symmetry holds whenever
the must-match stage gives the same verdict in both directions. -/
theorem imagesAppendCompatible_refl_symm :
    (∀ h : NiftiHeader, NpVal.nan ∉ h.pixdim →
      imagesAppendCompatible h h = true)
    ∧ (∀ a b : NiftiHeader, mustMatchClose a b = mustMatchClose b a →
        imagesAppendCompatible a b = imagesAppendCompatible b a) := by
  constructor
  · intro h hp
    exact imagesAppendCompatible_refl_of_no_nan hp
  · intro a b hmm
    unfold imagesAppendCompatible
    rw [hmm, dimensionMatch_symm]

/-- A header with a `NaN` in `pixdim`. -/
def hdrNaN : NiftiHeader :=
  { hdrBase with
      pixdim := [.nan, .num 2, .num 2, .num 2, .num 1, .num 1, .num 1, .num 1] }

/-- Headers that differ only in `intent_p1`, chosen on the asymmetric
edge of the relative tolerance: `|299997 − 300000| = 3` is within
`rtol·300000 = 3` but outside `rtol·299997`. -/
def hdrA : NiftiHeader := { hdrBase with intent_p1 := .num 299997 }

/-- See `hdrA`. -/
def hdrB : NiftiHeader := { hdrBase with intent_p1 := .num 300000 }

/-- C8 witness: the amended theorem applied to the concrete sample
header (no `NaN` in `pixdim`) and to a concrete symmetric pair. -/
theorem imagesAppendCompatible_refl_symm_witness :
    imagesAppendCompatible hdrBase hdrBase = true
    ∧ imagesAppendCompatible hdrBase hdrNaN
        = imagesAppendCompatible hdrNaN hdrBase :=
  ⟨imagesAppendCompatible_refl_symm.1 hdrBase (by decide),
   imagesAppendCompatible_refl_symm.2 hdrBase hdrNaN (by decide)⟩

/-- C8 counterexample: reflexivity fails on a header whose `pixdim`
holds a `NaN` (the claim asserts it "including headers containing
NaN-valued fields"), and symmetry fails outright on `hdrA`/`hdrB`. -/
theorem imagesAppendCompatible_refl_symm_counterexample :
    imagesAppendCompatible hdrNaN hdrNaN = false
    ∧ imagesAppendCompatible hdrA hdrB = true
    ∧ imagesAppendCompatible hdrB hdrA = false := by
  refine ⟨by decide, by decide, by decide⟩

/-! ## `BidsRun` (`bidsRun.py`) and claim C6

`getIncremental` indexes `self.incrementals[index]` with Python list
semantics and converts only an actual `IndexError` into the re-raised
`IndexError`: a negative index within `-len ≤ index < 0` silently
resolves from the end of the list. -/

/-- Python list indexing `l[i]`: non-negative indices from the front,
negative indices from the back, `none` on out-of-bounds. -/
def pyListGet {α : Type _} (l : List α) (i : ℤ) : Option α :=
  if 0 ≤ i then l.get? i.toNat
  else
    if 0 ≤ (l.length : ℤ) + i then l.get? ((l.length : ℤ) + i).toNat
    else none

/-- A BIDS Run: the ordered incrementals and the run entity dict. -/
structure BidsRun where
  incrementals : List BidsIncremental
  entities : Meta
deriving DecidableEq, Repr

/-- `BidsRun.getIncremental`: `self.incrementals[index]`.  When the
access raises `IndexError`, the `except` handler's re-raise message
evaluates `self.numVols()` — a method the class does not define (it
defines only `numIncrementals`) — so what actually propagates out of
the handler is `AttributeError`, not the intended `IndexError`. -/
def BidsRun.getIncremental (r : BidsRun) (index : ℤ) :
    Except PyErr BidsIncremental :=
  match pyListGet r.incrementals index with
  | some inc => .ok inc
  | none => .error .attributeError

/-- C6 (amended): `get(i)` returns the i-th (0-indexed) incremental
for `0 ≤ i < len`; a negative index with `-len ≤ i < 0` does NOT
raise: Python list indexing resolves it to element `len + i`; and an
out-of-bounds index (`i ≥ len` or `i < -len`) raises
`AttributeError`, not `IndexError` — the `except IndexError` handler
evaluates the undefined `self.numVols()` while building its message. -/
theorem runGetIncremental_python_indexing :
    (∀ (r : BidsRun) (i : ℤ), 0 ≤ i → i < r.incrementals.length →
      ∃ inc, r.incrementals.get? i.toNat = some inc
        ∧ r.getIncremental i = .ok inc)
    ∧ (∀ (r : BidsRun) (i : ℤ), i < 0 → 0 ≤ (r.incrementals.length : ℤ) + i →
        ∃ inc, r.incrementals.get? ((r.incrementals.length : ℤ) + i).toNat
            = some inc
          ∧ r.getIncremental i = .ok inc)
    ∧ (∀ (r : BidsRun) (i : ℤ), (r.incrementals.length : ℤ) ≤ i →
        r.getIncremental i = .error .attributeError)
    ∧ (∀ (r : BidsRun) (i : ℤ), (r.incrementals.length : ℤ) + i < 0 →
        r.getIncremental i = .error .attributeError) := by
  refine ⟨?_, ?_, ?_, ?_⟩
  · intro r i h0 hlt
    have hn : i.toNat < r.incrementals.length := by omega
    cases hq : r.incrementals.get? i.toNat with
    | none =>
      rw [List.get?_eq_none] at hq
      omega
    | some inc =>
      refine ⟨inc, rfl, ?_⟩
      unfold BidsRun.getIncremental pyListGet
      rw [if_pos h0, hq]
  · intro r i hneg hj
    have hn : ((r.incrementals.length : ℤ) + i).toNat < r.incrementals.length := by
      omega
    cases hq : r.incrementals.get? ((r.incrementals.length : ℤ) + i).toNat with
    | none =>
      rw [List.get?_eq_none] at hq
      omega
    | some inc =>
      refine ⟨inc, rfl, ?_⟩
      unfold BidsRun.getIncremental pyListGet
      rw [if_neg (not_le.mpr hneg), if_pos hj, hq]
  · intro r i hge
    have h0 : 0 ≤ i := le_trans (by positivity) hge
    have hq : r.incrementals.get? i.toNat = none := by
      rw [List.get?_eq_none]
      omega
    unfold BidsRun.getIncremental pyListGet
    rw [if_pos h0, hq]
  · intro r i hlt
    have hneg : ¬ 0 ≤ i := by omega
    unfold BidsRun.getIncremental pyListGet
    rw [if_neg hneg, if_neg (not_le.mpr hlt)]

/-- A run holding exactly one incremental. -/
def run1 : BidsRun := { incrementals := [inc3D], entities := [] }

/-- C6 witness: the theorem applied to the one-element run — index 0
succeeds, index 1 and index −2 raise `AttributeError`. -/
theorem runGetIncremental_python_indexing_witness :
    run1.getIncremental 0 = .ok inc3D
    ∧ run1.getIncremental 1 = .error .attributeError
    ∧ run1.getIncremental (-2) = .error .attributeError := by
  obtain ⟨inc, hq, hr⟩ := runGetIncremental_python_indexing.1 run1 0
    (by decide) (by decide)
  have h2 : (some inc3D : Option BidsIncremental) = some inc := hq
  injection h2 with he
  refine ⟨he ▸ hr, ?_, ?_⟩
  · exact runGetIncremental_python_indexing.2.2.1 run1 1 (by decide)
  · exact runGetIncremental_python_indexing.2.2.2 run1 (-2) (by decide)

/-- C6 counterexample: on a run with one incremental, `get(-1)`
returns the incremental instead of raising `IndexError` as the claim
demands for every negative index; and the genuinely out-of-bounds
`get(1)` raises `AttributeError`, not the `IndexError` the claim
asserts. -/
theorem runGetIncremental_negative_counterexample :
    run1.getIncremental (-1) = .ok inc3D
    ∧ (Except.ok inc3D : Except PyErr BidsIncremental)
        ≠ .error .indexError
    ∧ run1.getIncremental 1 = .error .attributeError
    ∧ (Except.error PyErr.attributeError : Except PyErr BidsIncremental)
        ≠ .error .indexError := by
  refine ⟨rfl, ?_, rfl, ?_⟩
  · intro hcon
    cases hcon
  · intro hcon
    injection hcon with he
    cases he

/-! ## `BidsArchive` (`bidsArchive.py`)

The on-disk dataset plus its pybids index are modelled as one list of
indexed files (the layout is re-derived from disk after every
mutation, so the two never diverge).  A file is identified by the
BIDS entities its path and filename encode together with its kind
(image `.nii`, sidecar `.json`, events `.tsv`); the filename builder
and the layout parser are inverse by construction, so paths are
represented by their entity maps directly.  An archive whose
`BIDSLayout` constructor failed (`self.data = None`) is `none`. -/

/-- What kind of file an index entry is. -/
inductive FileKind where
  | image
  | metadata
  | events
deriving DecidableEq, Repr

/-- One indexed file of the dataset.  `shape`, `frames` and `header`
are meaningful for images, `sidecar` for metadata files. -/
structure ArchiveFile where
  entities : Meta
  kind : FileKind
  shape : List Nat
  frames : List Vol
  header : NiftiHeader
  sidecar : Meta
deriving DecidableEq, Repr

/-- The archive: `none` while the layout handle is null (empty). -/
abbrev Archive := Option (List ArchiveFile)

/-- A path into the archive: the entities its name encodes plus the
file kind its extension encodes. -/
structure ArchPath where
  entities : Meta
  kind : FileKind
deriving DecidableEq, Repr

/-- Every binding of `q` holds the same (first-binding) value in
`fe`: dictionary sub-map test, used for entity filtering. -/
def entSubset (q fe : Meta) : Bool :=
  q.all fun p => pyGet fe p.1 == pyGet q p.1

/-- Python `dict ==` on metadata maps. -/
def dictEq (a b : Meta) : Bool :=
  entSubset a b && entSubset b a

/-- `filter_entities`: the subset of a metadata map whose keys are
recognized BIDS entities (`BidsIncremental.entities`, modelled from
the spec's `entities()` accessor). -/
def filterEntities (m : Meta) : Meta :=
  m.filter fun p => isBidsEntity p.1

/-- `incremental.entities`. -/
def entitiesOf (x : BidsIncremental) : Meta :=
  filterEntities x.imgMetadata

/-- Set a key only when the optional value is present. -/
def pySetOpt (m : Meta) (k : String) : Option PyVal → Meta
  | none => m
  | some v => pySet m k v

/-- The entity set a written file's path encodes: the metadata's
recognized entities (`makeBidsFileName`, `bidsIncremental.py`
380–407, keeps exactly the `ENTITIES` keys present in the metadata
plus the `suffix`), and the `datatype` directory element that
`writeToArchive` (line 461, via `dataType()`) puts on the path. -/
def fullEntities (x : BidsIncremental) : Meta :=
  pySetOpt (pySetOpt (entitiesOf x) "datatype" (pyGet x.imgMetadata "datatype"))
    "suffix" (pyGet x.imgMetadata "suffix")

/-- The directory part `(subject, session, datatype)` of an entity
map (`BIDS_DIR_PATH_PATTERN`). -/
def dirEntities (m : Meta) : Option PyVal × Option PyVal × Option PyVal :=
  (pyGet m "subject", pyGet m "session", pyGet m "datatype")

/-- First indexed image file whose path encodes exactly `E`
(`pathExists(imgPath)` / the `matchExact=True` lookup of
`appendIncremental`). -/
def findImageFile (files : List ArchiveFile) (E : Meta) : Option ArchiveFile :=
  files.find? fun f => f.kind == FileKind.image && dictEq f.entities E

/-- `np.linspace(0.0, 1.5, 27)` written into the sidecar by
`writeToArchive`. -/
def sliceTiming27 : List ℚ :=
  (List.range 27).map fun k => Rat.divInt (3 * k) 52

/-- The indexed image file a fresh write of `x` produces. -/
def imageFileOf (x : BidsIncremental) : ArchiveFile :=
  { entities := fullEntities x, kind := .image, shape := x.image.shape,
    frames := x.image.frames, header := x.image.header, sidecar := [] }

/-- The indexed sidecar file with the given JSON contents. -/
def sidecarFileOf (x : BidsIncremental) (contents : Meta) : ArchiveFile :=
  { entities := fullEntities x, kind := .metadata, shape := [],
    frames := [], header := x.image.header, sidecar := contents }

/-- The indexed events file (`suffix` forced to `events` by
`makeBidsFileName`). -/
def eventsFileOf (x : BidsIncremental) : ArchiveFile :=
  { entities := pySet (fullEntities x) "suffix" (.str "events"),
    kind := .events, shape := [], frames := [], header := x.image.header,
    sidecar := [] }

/-- `BidsIncremental.writeToArchive`: image, sidecar (with the
hard-coded `SliceTiming` list added), and events file.  (The dataset
description and README are not entity-indexed.) -/
def writeFiles (x : BidsIncremental) : List ArchiveFile :=
  [imageFileOf x,
   sidecarFileOf x (pySet x.imgMetadata "SliceTiming" (.list sliceTiming27)),
   eventsFileOf x]

/-- `layout.get_metadata(imgPath, include_entities=True)`: sidecar
JSON of the matching metadata file merged with the path entities. -/
def mergedMetadata (files : List ArchiveFile) (E : Meta) : Meta :=
  match files.find? fun f => f.kind == FileKind.metadata && dictEq f.entities E with
  | some f => pyUpdate f.sidecar E
  | none => E

/-- Extension validation of `getImages`. -/
def extBadImage : Option PyVal → Bool
  | none => false
  | some v => !(v == PyVal.str ".nii" || v == PyVal.str ".nii.gz")

/-- Extension validation of `getEvents`. -/
def extBadEvents : Option PyVal → Bool
  | none => false
  | some v => !(v == PyVal.str ".tsv" || v == PyVal.str ".tsv.gz")

/-- `BidsArchive.getImages` (`@failIfEmpty`): validate and pop the
`extension` filter, query the layout, keep only image files, and
resolve an exact match when requested. -/
def getImages (A : Archive) (matchExact : Bool) (query : Meta) :
    Except PyErr (List ArchiveFile) :=
  match A with
  | none => .error .stateError
  | some files =>
      if extBadImage (pyGet query "extension") then .error .valueError
      else if (files.filter fun f =>
          f.kind == FileKind.image
            && entSubset (pyPop query "extension") f.entities).isEmpty then
        .ok []
      else if matchExact then
        match (files.filter fun f =>
            f.kind == FileKind.image
              && entSubset (pyPop query "extension") f.entities).find?
            (fun f => dictEq f.entities (pyPop query "extension")) with
        | some f => .ok [f]
        | none => .ok []
      else
        .ok (files.filter fun f =>
          f.kind == FileKind.image
            && entSubset (pyPop query "extension") f.entities)

/-- `BidsArchive.getEvents` (`@failIfEmpty`): note the source only
reads (does not pop) the `extension` filter and forces
`suffix = "events"`. -/
def getEvents (A : Archive) (matchExact : Bool) (query : Meta) :
    Except PyErr (List ArchiveFile) :=
  match A with
  | none => .error .stateError
  | some files =>
      if extBadEvents (pyGet query "extension") then .error .valueError
      else
        let q := pySet query "suffix" (.str "events")
        let results := files.filter fun f => entSubset q f.entities
        if results.isEmpty then .ok []
        else if matchExact then
          match results.find? fun f => dictEq f.entities q with
          | some f => .ok [f]
          | none => .ok []
        else .ok results

/-- `BidsArchive.fileExistsInArchive`: `False` when the layout is
null. -/
def fileExistsInArchive (A : Archive) (p : ArchPath) : Bool :=
  match A with
  | none => false
  | some files =>
      files.any fun f => f.kind == p.kind && dictEq f.entities p.entities

/-- `BidsArchive.dirExists`: `False` when the layout is null; a
directory exists when some indexed file lives in it. -/
def dirExists (A : Archive) (d : Meta) : Bool :=
  match A with
  | none => false
  | some files => files.any fun f => decide (dirEntities f.entities = dirEntities d)

/-- `BidsArchive.pathExists = fileExistsInArchive or dirExists`. -/
def pathExists (A : Archive) (p : ArchPath) : Bool :=
  fileExistsInArchive A p || dirExists A p.entities

/-- `BidsArchive.tryGetFile`: on an empty archive the `__getattr__`
forwarding of `get_file` returns `None`, and calling `None(path)`
raises `TypeError`; otherwise look the path up (with and without the
leading slash — the same entity map either way). -/
def tryGetFile (A : Archive) (p : ArchPath) :
    Except PyErr (Option ArchiveFile) :=
  match A with
  | none => .error .typeError
  | some files =>
      .ok (files.find? fun f => f.kind == p.kind && dictEq f.entities p.entities)

/-- `BidsArchive.getMetadata` (`@failIfEmpty`). -/
def getMetadata (A : Archive) (p : ArchPath) (includeEntities : Bool) :
    Except PyErr Meta :=
  match A with
  | none => .error .stateError
  | some files =>
      match files.find? fun f => f.kind == p.kind && dictEq f.entities p.entities with
      | none => .error .noMatchError
      | some _ =>
          let contents :=
            match files.find? fun f =>
                f.kind == FileKind.metadata && dictEq f.entities p.entities with
            | some m => m.sidecar
            | none => []
          .ok (if includeEntities then pyUpdate contents p.entities else contents)

/-- `BidsArchive.appendIncremental` (`bidsArchive.py` 579–696).
Returns the updated archive and the boolean result.  Lines 617–620
read `incremental.dataDirPath`, `incremental.imageFilePath` and
`incremental.metadataFilePath` WITHOUT calling them — in
`bidsIncremental.py` (lines 422–441) these are plain methods, not
properties — so the three locals are bound-method objects.  On an
empty archive with `makePath` the incremental is written out
(`writeToArchive` plus `_updateLayout`) and the append returns
`True`; on an empty archive without `makePath` every `pathExists`
test is `False` (`self.data is None` short-circuits both
`fileExistsInArchive` and `dirExists`) and the append returns
`False`.  On every NON-empty archive, `self.pathExists(imgPath)`
(line 633) reaches `len(path)` in `_stripLeadingSlash` (line 127)
with the bound-method object and raises `TypeError`, before any
compatibility check or concatenation can run. -/
def appendIncremental (A : Archive) (x : BidsIncremental) (makePath : Bool) :
    Except PyErr (Archive × Bool) :=
  match A with
  | none =>
      if makePath then .ok (some (writeFiles x), true)
      else .ok (none, false)
  | some _ => .error .typeError

/-- `BidsArchive.getIncremental` (`@failIfEmpty`): bounds-check the
slice index, find the unique matching image, slice a 4-D volume, and
build a `BidsIncremental` from the slice plus the merged sidecar
metadata. -/
def archiveGetIncremental (A : Archive) (sliceIndex : ℤ) (query : Meta) :
    Except PyErr BidsIncremental :=
  match A with
  | none => .error .stateError
  | some files =>
      if sliceIndex < 0 then .error .indexError
      else
        match getImages (some files) false query with
        | .error e => .error e
        | .ok [] => .error .noMatchError
        | .ok [c] =>
            let meta := pyPop (mergedMetadata files c.entities) "extension"
            if c.shape.length = 3 then
              if sliceIndex ≠ 0 then .error .indexError
              else mkBidsIncremental
                (some { shape := c.shape, header := c.header,
                        frames := c.frames }) meta none
            else if c.shape.length = 4 then
              if sliceIndex < (c.frames.length : ℤ) then
                mkBidsIncremental
                  (some { shape := c.shape.take 3,
                          header := { c.header with
                            dim := niftiDimOf (c.shape.take 3) },
                          frames := [c.frames.getD sliceIndex.toNat []] })
                  meta none
              else .error .indexError
            else .error .runtimeError
        | .ok _ => .error .runtimeError

/-- `findImageFile` lifted to a possibly-empty archive. -/
def findImage (A : Archive) (E : Meta) : Option ArchiveFile :=
  match A with
  | none => none
  | some files => findImageFile files E

/-! ## Claim C7 -/

/-- C7 (amended): on an empty archive the `@failIfEmpty`-decorated
queries — `getImages`, `getEvents`, `getMetadata`, `getIncremental` —
fail with `State("Dataset empty")`; but `pathExists`, `dirExists` and
`fileExistsInArchive` are NOT decorated and simply return `False`,
and `tryGetFile` dies with a `TypeError` (the `__getattr__`
forwarding of `get_file` returns `None` on an empty archive, which is
then called). -/
theorem emptyArchive_query_behavior :
    (∀ me q, getImages none me q = .error .stateError)
    ∧ (∀ me q, getEvents none me q = .error .stateError)
    ∧ (∀ p incl, getMetadata none p incl = .error .stateError)
    ∧ (∀ i q, archiveGetIncremental none i q = .error .stateError)
    ∧ (∀ p, pathExists none p = false)
    ∧ (∀ p, fileExistsInArchive none p = false)
    ∧ (∀ d, dirExists none d = false)
    ∧ (∀ p, tryGetFile none p = .error .typeError) := by
  refine ⟨?_, ?_, ?_, ?_, ?_, ?_, ?_, ?_⟩ <;> intros <;> rfl

/-- C7 counterexample: `pathExists`, `dirExists` return `False` and
`tryGetFile` raises `TypeError` on the empty archive — none of the
three fails with the claimed `State("empty")` error. -/
theorem emptyArchive_query_counterexample :
    pathExists none ⟨[], FileKind.image⟩ = false
    ∧ dirExists none [] = false
    ∧ tryGetFile none ⟨[], FileKind.image⟩ = .error .typeError
    ∧ PyErr.typeError ≠ PyErr.stateError := by
  refine ⟨rfl, rfl, rfl, by decide⟩

/-! ## Claim C2: supporting lemmas -/

theorem pyGet_filter_key (m : Meta) (q : String → Bool) (k : String) :
    pyGet (m.filter fun p => q p.1) k
      = if q k = true then pyGet m k else none := by
  induction m with
  | nil => by_cases hq : q k = true <;> simp [pyGet, hq]
  | cons p rest ih =>
    obtain ⟨k0, v0⟩ := p
    rw [List.filter_cons]
    by_cases h0 : q k0 = true
    · rw [if_pos (by simpa using h0)]
      by_cases hk : k0 = k
      · subst hk
        rw [if_pos h0]
        simp [pyGet]
      · rw [pyGet, if_neg hk, ih, pyGet, if_neg hk]
    · rw [if_neg (by simpa using h0), ih]
      by_cases hk : k0 = k
      · subst hk
        simp [h0]
      · by_cases hq : q k = true
        · rw [if_pos hq, if_pos hq, pyGet, if_neg hk]
        · rw [if_neg hq, if_neg hq]

theorem pyGet_isSome_of_mem {m : Meta} {p : String × PyVal} (h : p ∈ m) :
    ∃ w, pyGet m p.1 = some w := by
  induction m with
  | nil => simp at h
  | cons p0 rest ih =>
    obtain ⟨k0, v0⟩ := p0
    rw [List.mem_cons] at h
    by_cases hk : k0 = p.1
    · exact ⟨v0, by rw [pyGet, if_pos hk]⟩
    · rcases h with he | hm
      · rw [he] at hk
        simp at hk
      · obtain ⟨w, hw⟩ := ih hm
        exact ⟨w, by rw [pyGet, if_neg hk, hw]⟩

theorem entSubset_refl (m : Meta) : entSubset m m = true := by
  simp only [entSubset, List.all_eq_true]
  intro p _
  exact beq_self_eq_true _

theorem dictEq_refl (m : Meta) : dictEq m m = true := by
  simp [dictEq, entSubset_refl]

theorem dictEq_get {a b : Meta} (h : dictEq a b = true) (k : String) :
    pyGet a k = pyGet b k := by
  simp only [dictEq, Bool.and_eq_true, entSubset, List.all_eq_true] at h
  obtain ⟨hab, hba⟩ := h
  cases hga : pyGet a k with
  | some v =>
    have hm := pyGet_mem hga
    have := hab (k, v) hm
    rw [beq_iff_eq] at this
    rw [this, hga]
  | none =>
    cases hgb : pyGet b k with
    | none => rfl
    | some w =>
      have hm := pyGet_mem hgb
      have := hba (k, w) hm
      rw [beq_iff_eq] at this
      rw [hga] at this
      rw [hgb] at this
      cases this

theorem entitiesOf_get (x : BidsIncremental) (k : String) :
    pyGet (entitiesOf x) k
      = if isBidsEntity k = true then pyGet x.imgMetadata k else none :=
  pyGet_filter_key x.imgMetadata isBidsEntity k

theorem fullEntities_supset {x : BidsIncremental} {k : String} {v : PyVal}
    (h : pyGet (entitiesOf x) k = some v) :
    pyGet (fullEntities x) k = some v := by
  have hm : pyGet x.imgMetadata k = some v := by
    rw [entitiesOf_get] at h
    by_cases hb : isBidsEntity k = true
    · rwa [if_pos hb] at h
    · rw [if_neg hb] at h; cases h
  unfold fullEntities
  by_cases hs : k = "suffix"
  · subst hs
    rw [show pyGet x.imgMetadata "suffix" = some v from hm]
    show pyGet (pySet _ "suffix" v) "suffix" = some v
    rw [pyGet_pySet, if_pos rfl]
  · have hinner : pyGet (pySetOpt (entitiesOf x) "datatype"
        (pyGet x.imgMetadata "datatype")) k = some v := by
      by_cases hd : k = "datatype"
      · subst hd
        rw [show pyGet x.imgMetadata "datatype" = some v from hm]
        show pyGet (pySet _ "datatype" v) "datatype" = some v
        rw [pyGet_pySet, if_pos rfl]
      · cases hgd : pyGet x.imgMetadata "datatype" with
        | none => exact h
        | some w =>
          show pyGet (pySet _ "datatype" w) k = some v
          rw [pyGet_pySet, if_neg (fun he => hd he.symm)]
          exact h
    cases hgs : pyGet x.imgMetadata "suffix" with
    | none => exact hinner
    | some w =>
      show pyGet (pySet _ "suffix" w) k = some v
      rw [pyGet_pySet, if_neg (fun he => hs he.symm)]
      exact hinner

theorem entitiesOf_extension_none (x : BidsIncremental) :
    pyGet (entitiesOf x) "extension" = none := by
  rw [entitiesOf_get, if_neg (by decide)]

theorem imageFileOf_pred (x : BidsIncremental) :
    ((imageFileOf x).kind == FileKind.image
      && dictEq (imageFileOf x).entities (fullEntities x)) = true := by
  show (FileKind.image == FileKind.image
    && dictEq (fullEntities x) (fullEntities x)) = true
  rw [dictEq_refl]
  rfl

/-- The only append that can return `True`: the write into an empty
archive; the written files index `x`'s image at its path. -/
theorem appendIncremental_ok_image {A A' : Archive} {x : BidsIncremental}
    {makePath : Bool}
    (h : appendIncremental A x makePath = .ok (A', true)) :
    A = none ∧ A' = some (writeFiles x)
      ∧ findImageFile (writeFiles x) (fullEntities x) = some (imageFileOf x) := by
  cases A with
  | none =>
    cases makePath with
    | true =>
      have h2 : (Except.ok (some (writeFiles x), true)
          : Except PyErr (Archive × Bool)) = .ok (A', true) := h
      injection h2 with h3
      refine ⟨rfl, (congrArg Prod.fst h3).symm, ?_⟩
      exact List.find?_cons_of_pos _ (imageFileOf_pred x)
    | false =>
      have h2 : (Except.ok ((none : Archive), false)
          : Except PyErr (Archive × Bool)) = .ok (A', true) := h
      injection h2 with h3
      have h4 : (false : Bool) = true := congrArg Prod.snd h3
      cases h4
  | some files =>
    have h2 : (Except.error PyErr.typeError
        : Except PyErr (Archive × Bool)) = .ok (A', true) := h
    cases h2

/-- C2 (code bug): `appendIncremental` binds
`incremental.dataDirPath` / `imageFilePath` / `metadataFilePath`
without calling them (bidsArchive.py 617–620; plain methods,
bidsIncremental.py 422–441), so on every non-empty archive
`pathExists(imgPath)` (line 633) reaches `len(path)` in
`_stripLeadingSlash` (line 127) on a bound-method object and raises
`TypeError` — the append-to-existing path the claim describes never
runs.  (i) The only append returning `True` is the write into an
empty archive; (ii) for it the claim's conclusion holds: `getImages`
with the incremental's entities returns the written image, whose
frames are exactly the appended volume (its last axis-3 frame, and
trivially the whole append order, since every later append crashes);
(iii) every append to a non-empty archive raises `TypeError`. -/
theorem appendIncremental_effects :
    (∀ A x A' makePath, appendIncremental A x makePath = .ok (A', true) →
      A = none ∧ A' = some (writeFiles x))
    ∧ (∀ A x A' v makePath, appendIncremental A x makePath = .ok (A', true) →
        x.image.frames = [v] →
        ((∃ r, getImages A' false (entitiesOf x) = .ok r ∧ 1 ≤ r.length)
          ∧ (∃ f, findImage A' (fullEntities x) = some f
              ∧ f.frames = [v] ∧ f.frames.getLast? = some v)))
    ∧ (∀ files x makePath,
        appendIncremental (some files) x makePath = .error .typeError) := by
  refine ⟨?_, ?_, ?_⟩
  · intro A x A' makePath h
    obtain ⟨hA, hA', _⟩ := appendIncremental_ok_image h
    exact ⟨hA, hA'⟩
  · intro A x A' v makePath h hv
    obtain ⟨hA, hA', hfind⟩ := appendIncremental_ok_image h
    subst hA'
    have hkind : ((imageFileOf x).kind == FileKind.image) = true := rfl
    have hmem : imageFileOf x ∈ writeFiles x := List.mem_cons_self _ _
    constructor
    · -- getImages returns a non-empty list
      have hsub : entSubset (pyPop (entitiesOf x) "extension")
          (fullEntities x) = true := by
        rw [entSubset, List.all_eq_true]
        intro p hp
        rw [pyPop, List.mem_filter] at hp
        have hpne : "extension" ≠ p.1 := by
          intro he
          have := hp.2
          rw [← he] at this
          simp at this
        obtain ⟨w, hw⟩ := pyGet_isSome_of_mem hp.1
        have hq : pyGet (pyPop (entitiesOf x) "extension") p.1 = some w := by
          rw [pyGet_pyPop, if_neg hpne]
          exact hw
        have hents : pyGet (fullEntities x) p.1 = some w :=
          fullEntities_supset hw
        rw [hq, hents]
        exact beq_self_eq_true _
      have hpred : ((imageFileOf x).kind == FileKind.image
          && entSubset (pyPop (entitiesOf x) "extension")
            (imageFileOf x).entities)
          = true := by
        rw [Bool.and_eq_true]
        exact ⟨hkind, hsub⟩
      have hmem2 : imageFileOf x ∈ (writeFiles x).filter (fun f =>
          f.kind == FileKind.image
            && entSubset (pyPop (entitiesOf x) "extension") f.entities) :=
        List.mem_filter.mpr ⟨hmem, hpred⟩
      have hext : extBadImage (pyGet (entitiesOf x) "extension") = false := by
        rw [entitiesOf_extension_none]
        rfl
      have hnem : ((writeFiles x).filter (fun f =>
          f.kind == FileKind.image
            && entSubset (pyPop (entitiesOf x) "extension") f.entities)).isEmpty
          = false := by
        cases he : ((writeFiles x).filter (fun f =>
            f.kind == FileKind.image
              && entSubset (pyPop (entitiesOf x) "extension")
                f.entities)).isEmpty
        · rfl
        · rw [List.isEmpty_iff] at he
          rw [he] at hmem2
          simp at hmem2
      refine ⟨(writeFiles x).filter (fun f =>
          f.kind == FileKind.image
            && entSubset (pyPop (entitiesOf x) "extension") f.entities),
        ?_, ?_⟩
      · unfold getImages
        rw [hext]
        simp only [Bool.false_eq_true, if_false]
        rw [hnem]
        simp only [Bool.false_eq_true, if_false]
      · have := List.length_pos.mpr (List.ne_nil_of_mem hmem2)
        omega
    · refine ⟨imageFileOf x, hfind, ?_, ?_⟩
      · show x.image.frames = [v]
        exact hv
      · show x.image.frames.getLast? = some v
        rw [hv]
        rfl
  · intro files x makePath
    rfl

/-- A second incremental (distinct `AcquisitionTime`), appended to
the already non-empty archive in the witness. -/
def inc3Db : BidsIncremental :=
  forceOk (mkBidsIncremental (some img3D)
    (("AcquisitionTime", PyVal.int 99) :: metaBase) none)

/-- The archive after appending `inc3D` to the empty archive. -/
def arch1 : Archive := some (writeFiles inc3D)

/-- C2 witness: the theorem applied to concrete appends — the first
append (into the empty archive) succeeds and the query finds the
written image with the appended volume as its last frame, while the
second append, now on a non-empty archive, raises `TypeError`. -/
theorem appendIncremental_effects_witness :
    (getImages arch1 false (entitiesOf inc3D)).isOk = true
    ∧ (findImage arch1 (fullEntities inc3D)).map (fun f => f.frames.getLast?)
        = some (some [1, 2, 3, 4, 5, 6, 7, 8])
    ∧ appendIncremental arch1 inc3Db true = .error .typeError := by
  obtain ⟨⟨r, hr, hlen⟩, ⟨f, hf, hfr, hlast⟩⟩ :=
    appendIncremental_effects.2.1 none inc3D arch1 [1, 2, 3, 4, 5, 6, 7, 8]
      true (by rfl) (by rfl)
  refine ⟨by rw [hr]; rfl, by rw [hf, Option.map_some', hlast], ?_⟩
  exact appendIncremental_effects.2.2 (writeFiles inc3D) inc3Db true

end RtCloud
